import Mathlib

/-!
# smarthomatic soil moisture meter: measurement, normalisation and report scheduling

Shallow embedding of `firmware/shc_soil_moisture_meter/shc_soil_moisture_meter.c`.

Conventions of the embedding.

* Machine integers are natural numbers; every C operation that can leave its
  width is followed by an explicit reduction (`% 2 ^ 32`, `% 2 ^ 16`, `% 2 ^ 8`).
* The global variables of the translation unit are the fields of `State`.
* The packets handed to the radio are returned as a list of `Packet`.
* Division by zero is undefined in C.  The quotient `result` of line 190 is
  only printed and passed to the status report, no branch depends on it, so the
  embedding gives it the type `Option Nat` (`none` = the divisor was zero) and
  carries it into the packet.  The quotient `avg` of line 175 decides the
  branches that follow, so a zero divisor there makes the whole call undefined:
  `measure_humidity` returns `none`.
-/

namespace SoilMoistureMeter

/-- Line 53: `#define SEND_VERSION_STATUS_CYCLE 50`. -/
def SEND_VERSION_STATUS_CYCLE : Nat := 50

/-- Two to the 32, the modulus of `uint32_t`. -/
abbrev U32 : Nat := 4294967296

/-- Two to the 16, the modulus of `uint16_t`. -/
abbrev U16 : Nat := 65536

/-- Two to the 8, the modulus of `uint8_t`. -/
abbrev U8 : Nat := 256

/-- Unsigned 32-bit subtraction `a - b` of two `uint32_t` values. -/
def sub32 (a b : Nat) : Nat := (a + U32 - b) % U32

/-- The global variables of the firmware (lines 55-68) together with the packet
counter of the transport layer and the local `loop` of `main`. -/
structure State where
  /-- Line 55, `uint16_t device_id`. -/
  device_id : Nat
  /-- Packet counter of the transport layer, `uint32_t packetcounter`. -/
  packetcounter : Nat
  /-- Line 60, `uint16_t send_status_timeout`. -/
  send_status_timeout : Nat
  /-- Line 61, `uint8_t version_status_cycle`. -/
  version_status_cycle : Nat
  /-- Line 63, `uint32_t counter_thr`. -/
  counter_thr : Nat
  /-- Line 64, `uint32_t counter_min`. -/
  counter_min : Nat
  /-- Line 65, `uint32_t counter_meas`. -/
  counter_meas : Nat
  /-- Line 67, `uint16_t wupCnt`. -/
  wupCnt : Nat
  /-- Line 68, `uint16_t avgInt`. -/
  avgInt : Nat
  /-- Line 226, `uint8_t loop` of `main`. -/
  loop : Nat
  deriving DecidableEq, Repr

/-- Every variable holds a value of its C type. -/
def State.wf (s : State) : Prop :=
  s.device_id < U16 ∧ s.packetcounter < U32 ∧ s.send_status_timeout < U16 ∧
  s.version_status_cycle < U8 ∧ s.counter_thr < U32 ∧ s.counter_min < U32 ∧
  s.counter_meas < U32 ∧ s.wupCnt < U16 ∧ s.avgInt < U16 ∧ s.loop < U8

instance (s : State) : Decidable s.wf := by
  unfold State.wf
  infer_instance

/-- The state after the initialisers of lines 60-68 and the start-up code of
`main` (lines 226-269), which reads the device id and the packet counter from
the EEPROM. -/
def init_state (device_id packetcounter : Nat) : State :=
  { device_id := device_id
    packetcounter := packetcounter
    send_status_timeout := 5
    version_status_cycle := SEND_VERSION_STATUS_CYCLE - 1
    counter_thr := 35000
    counter_min := 100000
    counter_meas := 0
    wupCnt := 0
    avgInt := 3
    loop := 0 }

/-- A packet handed to the radio (`rfm12_send_bufx`). -/
inductive Packet where
  /-- Humidity/temperature status (lines 125-129): sender id, packet counter,
  humidity (`none` when the value is the quotient by a zero divisor),
  temperature. -/
  | humidity (senderid packetcounter : Nat) (hum : Option Nat) (temperature : Int)
  /-- Version status (lines 212-218): sender id, packet counter. -/
  | version (senderid packetcounter : Nat)
  deriving DecidableEq, Repr

/-- The packet is a humidity status report. -/
def Packet.isHumidity : Packet → Bool
  | .humidity _ _ _ _ => true
  | .version _ _ => false

/-- The packet is a version status report. -/
def Packet.isVersion : Packet → Bool
  | .humidity _ _ _ _ => false
  | .version _ _ => true

/-- The humidity value of a humidity status report. -/
def Packet.hum? : Packet → Option (Option Nat)
  | .humidity _ _ h _ => some h
  | .version _ _ => none

/-- The packet counter placed in the header of a packet
(`pkg_header_set_packetcounter`, lines 127 and 214). -/
def Packet.counter : Packet → Nat
  | .humidity _ pc _ _ => pc
  | .version _ pc => pc

/-- The loop of `power` (lines 76-80): `y` times `result *= x` on `uint32_t`. -/
def power_loop (x : Nat) : Nat → Nat → Nat
  | result, 0 => result
  | result, y + 1 => power_loop x (result * x % U32) y

/-- Lines 72-83, `uint32_t power(uint32_t x, uint32_t y)`. -/
def power (x y : Nat) : Nat := power_loop x 1 y

/-- Line 100: the seconds computed from the timer code `interval`. -/
def wakeup_sec (interval : Nat) : Nat :=
  (((interval &&& 0xff) * power 2 ((interval >>> 8) &&& 0b11111)) % U32 + 500) % U32 / 1000 % U16

/-- Lines 88-104, `init_wakeup`.  `stored` is the value read from the EEPROM by
`e2p_soilmoisturemeter_get_wakeupinterval`; the constant `WAKEUPINTERVAL_105S`
is declared in a header outside this file and is a parameter.  The result is
the code given to `rfm12_set_wakeup_timer` and the returned seconds. -/
def init_wakeup (WAKEUPINTERVAL_105S stored : Nat) : Nat × Nat :=
  let interval := if stored = 0 then WAKEUPINTERVAL_105S else stored
  (interval, wakeup_sec interval)

/-- Modelled from the spec: `inc_packetcounter` is defined in the common
utilities, outside this file.  It advances the packet sequence counter by one
(`uint32_t`). -/
def inc_packetcounter (s : State) : State :=
  { s with packetcounter := (s.packetcounter + 1) % U32 }

/-- Lines 118-138, `send_humidity_temperature_status(uint16_t hum)`.  The
argument is narrowed to 16 bits by the call. -/
def send_humidity_temperature_status (s : State) (hum : Option Nat) : State × Packet :=
  let s1 := inc_packetcounter s
  (s1, Packet.humidity s1.device_id s1.packetcounter (hum.map (· % U16)) 0)

/-- Lines 205-222, `send_version_status`. -/
def send_version_status (s : State) : State × Packet :=
  let s1 := inc_packetcounter s
  (s1, Packet.version s1.device_id s1.packetcounter)

/-- Line 173 seen from the state before the call: after `wupCnt++` (line 169)
the counter equals `avgInt`. -/
def completes (s : State) : Prop := (s.wupCnt + 1) % U16 = s.avgInt

instance (s : State) : Decidable (completes s) := by
  unfold completes
  infer_instance

/-- The accumulator after line 168, `counter_meas += result`, where `result` is
the 16-bit timer register `TCNT1`. -/
def accumulated (s : State) (raw : Nat) : Nat := (s.counter_meas + raw % U16) % U32

/-- Line 175 seen from the state before the call: the value of the local `avg`,
for a non-zero `avgInt`. -/
def avg (s : State) (raw : Nat) : Nat := accumulated s raw / s.avgInt

/-- Lines 184-191: the local `result` computed from `avg` and the globals
`counter_thr` and `counter_min` (the latter already updated by line 179).
`none` when the divisor of line 190 is zero. -/
def permill (counter_thr counter_min avg : Nat) : Option Nat :=
  if avg > counter_thr then some 0
  else if sub32 counter_thr counter_min = 0 then none
  else some (sub32 counter_thr avg * 1000 % U32 / sub32 counter_thr counter_min)

/-- Lines 141-203, `measure_humidity`.  `raw` is the value of the timer register
`TCNT1` read at line 162.  The result is `none` when line 175 divides by a zero
`avgInt`; otherwise it is the new state and the packets sent. -/
def measure_humidity (s : State) (raw : Nat) : Option (State × List Packet) :=
  let s1 := { s with counter_meas := accumulated s raw, wupCnt := (s.wupCnt + 1) % U16 }
  if s1.wupCnt = s1.avgInt then
    if s1.avgInt = 0 then none
    else
      let avg := s1.counter_meas / s1.avgInt
      let s2 := if avg < s1.counter_min then { s1 with counter_min := avg } else s1
      let result := permill s2.counter_thr s2.counter_min avg
      let (s3, p) := send_humidity_temperature_status s2 result
      some ({ s3 with wupCnt := 0, counter_meas := 0 }, [p])
  else some (s1, [])

/-- One iteration of the loop of `main` (lines 271-313).  `rfm12_tick`,
`led_blink` and the sleep change none of the variables of `State`. -/
def main_cycle (s : State) (raw : Nat) : Option (State × List Packet) :=
  let s1 := { s with send_status_timeout := (s.send_status_timeout + U16 - 1) % U16 }
  match measure_humidity s1 raw with
  | none => none
  | some (s2, out) =>
    if s2.version_status_cycle ≥ SEND_VERSION_STATUS_CYCLE then
      let (s3, p) := send_version_status { s2 with version_status_cycle := 0 }
      some ({ s3 with loop := (s3.loop + 1) % U8 }, out ++ [p])
    else some ({ s2 with loop := (s2.loop + 1) % U8 }, out)

/-- Consecutive calls of `measure_humidity`, one per raw count; the result
lists the packets of each call. -/
def measure_run : State → List Nat → Option (State × List (List Packet))
  | s, [] => some (s, [])
  | s, raw :: raws =>
    match measure_humidity s raw with
    | none => none
    | some (s1, out) =>
      match measure_run s1 raws with
      | none => none
      | some (s2, outs) => some (s2, out :: outs)

/-- Consecutive iterations of the loop of `main`, one per raw count; the result
lists the packets of each wake cycle. -/
def main_run : State → List Nat → Option (State × List (List Packet))
  | s, [] => some (s, [])
  | s, raw :: raws =>
    match main_cycle s raw with
    | none => none
    | some (s1, out) =>
      match main_run s1 raws with
      | none => none
      | some (s2, outs) => some (s2, out :: outs)

/-- Rounding of `x / 1000` to the nearest integer, halves up, on naturals. -/
def round_div_1000 (x : Nat) : Nat := (x + 500) / 1000

/-! ## Arithmetic helpers -/

theorem power_loop_eq (x : Nat) : ∀ (y result : Nat), result < U32 →
    power_loop x result y = result * x ^ y % U32 := by
  intro y
  induction y with
  | zero => intro r hr; simp [power_loop, Nat.mod_eq_of_lt hr]
  | succ n ih =>
    intro r hr
    rw [power_loop, ih _ (Nat.mod_lt _ (by decide)), Nat.mod_mul_mod, pow_succ']
    ring_nf

theorem power_eq (x y : Nat) : power x y = x ^ y % U32 := by
  rw [power, power_loop_eq x y 1 (by decide), one_mul]

theorem power_two (e : Nat) (he : e < 32) : power 2 e = 2 ^ e := by
  rw [power_eq]
  apply Nat.mod_eq_of_lt
  calc 2 ^ e < 2 ^ 32 := Nat.pow_lt_pow_right (by decide) he
    _ = U32 := by norm_num

theorem and_255 (x : Nat) : x &&& 0xff = x % 256 := Nat.and_pow_two_sub_one_eq_mod x 8

theorem and_31 (x : Nat) : x &&& 0b11111 = x % 32 := Nat.and_pow_two_sub_one_eq_mod x 5

theorem round_div_1000_eq (x : Nat) :
    round ((x : ℚ) / 1000) = ((round_div_1000 x : ℕ) : ℤ) := by
  rw [round_eq, round_div_1000]
  have h : (x : ℚ) / 1000 + 1 / 2 = (((x + 500 : ℕ) : ℤ) : ℚ) / ((1000 : ℕ) : ℚ) := by
    push_cast
    ring
  rw [h, Rat.floor_intCast_div_natCast]
  norm_cast

/-- The addition of 500 in line 100 never leaves 32 bits. -/
theorem product_add_500_lt (m e : Nat) (hm : m < 256) : m * 2 ^ e % U32 + 500 < U32 := by
  rcases Nat.lt_or_ge e 9 with he | he
  · have h1 : 2 ^ e ≤ 2 ^ 8 := Nat.pow_le_pow_right (by decide) (by omega)
    have h2 : m * 2 ^ e ≤ 255 * 2 ^ 8 := Nat.mul_le_mul (by omega) h1
    have h3 : m * 2 ^ e % U32 ≤ m * 2 ^ e := Nat.mod_le _ _
    have h4 : 255 * 2 ^ 8 = 65280 := by norm_num
    have hU : U32 = 4294967296 := rfl
    omega
  · obtain ⟨d, rfl⟩ : ∃ d, e = 9 + d := ⟨e - 9, by omega⟩
    have h1 : m * 2 ^ (9 + d) = 512 * (m * 2 ^ d) := by rw [pow_add]; ring
    have h2 : U32 = 512 * 8388608 := by norm_num
    rw [h1, h2, Nat.mul_mod_mul_left]
    have h3 : m * 2 ^ d % 8388608 < 8388608 := Nat.mod_lt _ (by decide)
    omega

theorem wakeup_sec_eq (interval : Nat) :
    wakeup_sec interval =
      (((interval &&& 0xff) * 2 ^ ((interval >>> 8) &&& 0b11111)) % U32 + 500) / 1000 % U16 := by
  have he : (interval >>> 8) &&& 0b11111 < 32 := by
    rw [and_31]; exact Nat.mod_lt _ (by decide)
  have hm : interval &&& 0xff < 256 := by
    rw [and_255]; exact Nat.mod_lt _ (by decide)
  rw [wakeup_sec, power_two _ he, Nat.mod_eq_of_lt (product_add_500_lt _ _ hm)]

/-! ## Wake interval (C1) -/

/-- C1 (amended): for every non-zero stored code with mantissa `m = code & 0xff`
and exponent `e = (code >> 8) & 0b11111`, the seconds value returned by
`init_wakeup` is `round (m * 2 ^ e mod 2 ^ 32 / 1000)` reduced modulo `2 ^ 16`;
it equals `round (m * 2 ^ e / 1000)` in exact arithmetic (halves up) whenever
that value fits the 16-bit result, that is when `m * 2 ^ e + 500 < 65536000`. -/
theorem init_wakeup_seconds (D code : Nat) (h0 : code ≠ 0) :
    (init_wakeup D code).2 =
        round_div_1000 ((code &&& 0xff) * 2 ^ ((code >>> 8) &&& 0b11111) % 2 ^ 32) % 2 ^ 16 ∧
      ((code &&& 0xff) * 2 ^ ((code >>> 8) &&& 0b11111) + 500 < 65536000 →
        ((init_wakeup D code).2 : ℤ) =
          round ((((code &&& 0xff) * 2 ^ ((code >>> 8) &&& 0b11111) : ℕ) : ℚ) / 1000)) := by
  have hs : (init_wakeup D code).2 =
      ((code &&& 0xff) * 2 ^ ((code >>> 8) &&& 0b11111) % U32 + 500) / 1000 % U16 := by
    simp only [init_wakeup, if_neg h0]
    exact wakeup_sec_eq code
  refine ⟨by rw [hs, round_div_1000]; rfl, ?_⟩
  intro hfit
  rw [round_div_1000_eq, hs, round_div_1000]
  have h1 : (code &&& 0xff) * 2 ^ ((code >>> 8) &&& 0b11111) < U32 := by
    have : (65536000 : ℕ) < U32 := by decide
    omega
  rw [Nat.mod_eq_of_lt h1, Nat.mod_eq_of_lt]
  have hU : U16 = 65536 := rfl
  omega

/-- Witness of C1 (amended): the code `0x0569` (mantissa 105, exponent 5) is
decoded to 3 seconds, the rounding of 3.36.  The default code plays no part for
a non-zero stored code; 2509 stands for it. -/
theorem init_wakeup_seconds_witness :
    1385 &&& 0xff = 105 ∧ (1385 >>> 8) &&& 0b11111 = 5 ∧ (init_wakeup 2509 1385).2 = 3 ∧
      ((init_wakeup 2509 1385).2 : ℤ) =
        round ((((1385 &&& 0xff) * 2 ^ ((1385 >>> 8) &&& 0b11111) : ℕ) : ℚ) / 1000) :=
  ⟨by decide, by decide, by decide,
    (init_wakeup_seconds 2509 1385 (by decide)).2 (by decide)⟩

/-- Counterexample to C1 as stated: the code `0x1a01` (mantissa 1, exponent 26)
is decoded to 1573 seconds, while `round (1 * 2 ^ 26 / 1000)` is 67109, which
does not fit the `uint16_t` result. -/
theorem init_wakeup_seconds_counterexample :
    6657 &&& 0xff = 1 ∧ (6657 >>> 8) &&& 0b11111 = 26 ∧ (init_wakeup 2509 6657).2 = 1573 ∧
      round (((1 * 2 ^ 26 : ℕ) : ℚ) / 1000) = 67109 ∧
      ((init_wakeup 2509 6657).2 : ℤ) ≠ round (((1 * 2 ^ 26 : ℕ) : ℚ) / 1000) := by
  refine ⟨by decide, by decide, by decide, ?_, ?_⟩
  · rw [round_div_1000_eq]
    decide
  · rw [round_div_1000_eq]
    decide

/-! ## One call of `measure_humidity` -/

theorem sub32_eq (a b : Nat) (hb : b ≤ a) (ha : a < U32) : sub32 a b = a - b := by
  have hU : U32 = 4294967296 := rfl
  simp only [sub32, hU] at *
  omega

theorem measure_humidity_idle (s : State) (raw : Nat) (h : ¬ completes s) :
    measure_humidity s raw =
      some ({ s with counter_meas := accumulated s raw, wupCnt := (s.wupCnt + 1) % U16 }, []) := by
  unfold completes at h
  simp [measure_humidity, h]

theorem measure_humidity_completes (s : State) (raw : Nat) (h : completes s) (h0 : s.avgInt ≠ 0) :
    measure_humidity s raw =
      some ({ s with
                counter_min := min s.counter_min (avg s raw)
                counter_meas := 0
                wupCnt := 0
                packetcounter := (s.packetcounter + 1) % U32 },
            [Packet.humidity s.device_id ((s.packetcounter + 1) % U32)
              ((permill s.counter_thr (min s.counter_min (avg s raw)) (avg s raw)).map (· % U16)) 0]) := by
  unfold completes at h
  by_cases hlt : avg s raw < s.counter_min
  · have hmin : min s.counter_min (accumulated s raw / s.avgInt) =
        accumulated s raw / s.avgInt := by unfold avg at hlt; omega
    have hlt2 : accumulated s raw / s.avgInt < s.counter_min := hlt
    simp [measure_humidity, h, h0, send_humidity_temperature_status, inc_packetcounter, hmin,
      hlt2, avg]
  · have hmin : min s.counter_min (accumulated s raw / s.avgInt) = s.counter_min := by
      unfold avg at hlt; omega
    have hlt2 : ¬ accumulated s raw / s.avgInt < s.counter_min := hlt
    simp [measure_humidity, h, h0, send_humidity_temperature_status, inc_packetcounter, hmin,
      hlt2, avg]

theorem permill_of_le (thr b a : Nat) (hthr : thr < U32) (hb : b ≤ a) (ha : a ≤ thr) :
    permill thr b a =
      if thr = b then none else some ((thr - a) * 1000 % U32 / (thr - b)) := by
  have h1 : ¬ a > thr := by omega
  rw [permill, if_neg h1, sub32_eq thr b (by omega) hthr, sub32_eq thr a ha hthr]
  by_cases h : thr = b
  · simp [h]
  · have : thr - b ≠ 0 := by omega
    simp [h, this]

theorem permill_of_gt (thr b a : Nat) (ha : thr < a) : permill thr b a = some 0 := by
  simp [permill, ha]

theorem permill_le_1000 (thr b a h : Nat) (hthr : thr < U32) (hb : b ≤ a)
    (hp : permill thr b a = some h) : h ≤ 1000 := by
  rcases Nat.lt_or_ge thr a with hgt | hle
  · rw [permill_of_gt thr b a hgt] at hp
    cases hp
    omega
  · rw [permill_of_le thr b a hthr hb hle] at hp
    by_cases hz : thr = b
    · simp [hz] at hp
    · simp only [if_neg hz, Option.some.injEq] at hp
      subst hp
      apply Nat.div_le_of_le_mul
      calc (thr - a) * 1000 % U32 ≤ (thr - a) * 1000 := Nat.mod_le _ _
        _ ≤ (thr - b) * 1000 := Nat.mul_le_mul_right _ (by omega)

/-! ## Version report (C2) -/

/-- What a call of `measure_humidity` leaves unchanged, and that it only sends
humidity reports; it returns whenever `avgInt` is not zero. -/
theorem measure_humidity_frame (s : State) (raw : Nat) (h0 : s.avgInt ≠ 0) :
    ∃ s' out, measure_humidity s raw = some (s', out) ∧ s'.avgInt = s.avgInt ∧
      s'.version_status_cycle = s.version_status_cycle ∧ s'.counter_thr = s.counter_thr ∧
      s'.send_status_timeout = s.send_status_timeout ∧ s'.loop = s.loop ∧
      ∀ p ∈ out, p.isVersion = false := by
  by_cases hc : completes s
  · rw [measure_humidity_completes s raw hc h0]
    exact ⟨_, _, rfl, rfl, rfl, rfl, rfl, rfl, by simp [Packet.isVersion]⟩
  · rw [measure_humidity_idle s raw hc]
    exact ⟨_, _, rfl, rfl, rfl, rfl, rfl, rfl, by simp⟩

theorem main_cycle_no_version (s : State) (raw : Nat) (h0 : s.avgInt ≠ 0)
    (hv : s.version_status_cycle < SEND_VERSION_STATUS_CYCLE) :
    ∃ s' out, main_cycle s raw = some (s', out) ∧ s'.avgInt = s.avgInt ∧
      s'.version_status_cycle = s.version_status_cycle ∧ ∀ p ∈ out, p.isVersion = false := by
  obtain ⟨s1, out, hm, ha, hvs, -, -, -, hout⟩ :=
    measure_humidity_frame
      { s with send_status_timeout := (s.send_status_timeout + U16 - 1) % U16 } raw h0
  have hlt : ¬ s1.version_status_cycle ≥ SEND_VERSION_STATUS_CYCLE := by
    rw [hvs]; exact Nat.not_le.mpr hv
  refine ⟨{ s1 with loop := (s1.loop + 1) % U8 }, out, ?_, ha, hvs, hout⟩
  simp only [main_cycle, hm, if_neg hlt]

theorem main_run_no_version : ∀ (raws : List Nat) (s : State), s.avgInt ≠ 0 →
    s.version_status_cycle < SEND_VERSION_STATUS_CYCLE →
    ∃ s' outs, main_run s raws = some (s', outs) ∧ outs.length = raws.length ∧
      s'.version_status_cycle = s.version_status_cycle ∧
      ∀ out ∈ outs, ∀ p ∈ out, p.isVersion = false := by
  intro raws
  induction raws with
  | nil => intro s _ _; exact ⟨s, [], rfl, rfl, rfl, by simp⟩
  | cons raw raws ih =>
    intro s h0 hv
    obtain ⟨s1, out, hm, ha, hvs, hout⟩ := main_cycle_no_version s raw h0 hv
    obtain ⟨s2, outs, hr, hl, hvs2, houts⟩ := ih s1 (by rw [ha]; exact h0) (by rw [hvs]; exact hv)
    refine ⟨s2, out :: outs, ?_, by simp [hl], by rw [hvs2, hvs], ?_⟩
    · simp only [main_run, hm, hr]
    · intro o ho
      rcases List.mem_cons.mp ho with rfl | ho
      · exact hout
      · exact houts o ho

/-- C2 (code at the failing input): from the initial state the loop of `main`
never sends a version status report, however many wake cycles are run: the
counter `version_status_cycle` is never incremented and stays at 49, below
`SEND_VERSION_STATUS_CYCLE`. -/
theorem version_report_never_sent (device_id packetcounter : Nat) (raws : List Nat) :
    ∃ s outs, main_run (init_state device_id packetcounter) raws = some (s, outs) ∧
      outs.length = raws.length ∧ s.version_status_cycle = 49 ∧
      ∀ out ∈ outs, ∀ p ∈ out, p.isVersion = false := by
  obtain ⟨s, outs, hr, hl, hv, hout⟩ :=
    main_run_no_version raws (init_state device_id packetcounter)
      (by simp [init_state]) (by simp [init_state, SEND_VERSION_STATUS_CYCLE])
  exact ⟨s, outs, hr, hl, by rw [hv]; rfl, hout⟩

/-! ## Sensor report cadence (C3) -/

theorem completes_iff (s : State) (h2 : s.avgInt < U16) (hw : s.wupCnt < s.avgInt) :
    completes s ↔ s.wupCnt + 1 = s.avgInt := by
  have hU : U16 = 65536 := rfl
  unfold completes
  rw [Nat.mod_eq_of_lt (by omega)]

theorem measure_run_cons (s : State) (raw : Nat) (raws : List Nat) (s1 s2 : State)
    (out : List Packet) (outs : List (List Packet))
    (h1 : measure_humidity s raw = some (s1, out)) (h2 : measure_run s1 raws = some (s2, outs)) :
    measure_run s (raw :: raws) = some (s2, out :: outs) := by
  simp only [measure_run, h1, h2]

/-- One call of `measure_humidity` inside an averaging period: either it
completes the period, sends one humidity report and resets the averager, or it
only accumulates. -/
theorem measure_humidity_step (s : State) (raw : Nat) (h1 : 1 ≤ s.avgInt) (h2 : s.avgInt < U16)
    (hw : s.wupCnt < s.avgInt) :
    ∃ s1 out, measure_humidity s raw = some (s1, out) ∧ s1.avgInt = s.avgInt ∧
      (s.wupCnt + 1 = s.avgInt →
        s1.wupCnt = 0 ∧ s1.counter_meas = 0 ∧ ∃ p, out = [p] ∧ p.isHumidity = true) ∧
      (s.wupCnt + 1 ≠ s.avgInt →
        s1.wupCnt = s.wupCnt + 1 ∧ s1.counter_meas = accumulated s raw ∧ out = [] ∧
          s1.counter_min = s.counter_min) := by
  by_cases hc : completes s
  · have hc' := (completes_iff s h2 hw).mp hc
    refine ⟨_, _, measure_humidity_completes s raw hc (by omega), rfl, ?_, ?_⟩
    · intro _
      exact ⟨rfl, rfl, _, rfl, rfl⟩
    · intro h
      exact absurd hc' h
  · have hc' : s.wupCnt + 1 ≠ s.avgInt := fun h => hc ((completes_iff s h2 hw).mpr h)
    have hU : U16 = 65536 := rfl
    have hmod : (s.wupCnt + 1) % U16 = s.wupCnt + 1 := Nat.mod_eq_of_lt (by omega)
    refine ⟨_, _, measure_humidity_idle s raw hc, rfl, ?_, ?_⟩
    · intro h
      exact absurd h hc'
    · intro _
      exact ⟨hmod, rfl, rfl, rfl⟩

/-- The report cadence of consecutive calls, from any state of the averaging
period. -/
theorem measure_run_cadence : ∀ (raws : List Nat) (s : State), 1 ≤ s.avgInt → s.avgInt < U16 →
    s.wupCnt < s.avgInt →
    ∃ s' outs, measure_run s raws = some (s', outs) ∧ outs.length = raws.length ∧
      s'.avgInt = s.avgInt ∧ s'.wupCnt = (s.wupCnt + raws.length) % s.avgInt ∧
      ((s.wupCnt = 0 → s.counter_meas = 0) → s'.wupCnt = 0 → s'.counter_meas = 0) ∧
      ∀ k out, outs[k]? = some out →
        out.length ≤ 1 ∧ ((∃ p ∈ out, p.isHumidity = true) ↔ s.avgInt ∣ s.wupCnt + k + 1) := by
  intro raws
  induction raws with
  | nil =>
    intro s _ _ hw
    exact ⟨s, [], rfl, rfl, rfl, by simp [Nat.mod_eq_of_lt hw], fun h => h, by simp⟩
  | cons raw raws ih =>
    intro s h1 h2 hw
    obtain ⟨s1, out, hm, ha1, hyes, hno⟩ := measure_humidity_step s raw h1 h2 hw
    by_cases hc : s.wupCnt + 1 = s.avgInt
    · obtain ⟨hw1, hm1, p, hp, hph⟩ := hyes hc
      obtain ⟨s2, outs, hr, hl, ha, hwup, hreset, hk⟩ := ih s1 (by omega) (by omega) (by omega)
      refine ⟨s2, out :: outs, measure_run_cons _ _ _ _ _ _ _ hm hr, by simp [hl], by omega,
        ?_, ?_, ?_⟩
      · rw [hwup, hw1, ha1]
        simp only [List.length_cons, zero_add]
        rw [show s.wupCnt + (raws.length + 1) = raws.length + s.avgInt by omega,
          Nat.add_mod_right]
      · intro _ h
        exact hreset (fun _ => hm1) h
      · intro k o hout
        cases k with
        | zero =>
          simp only [List.getElem?_cons_zero, Option.some.injEq] at hout
          subst hout
          subst hp
          refine ⟨by simp, ?_⟩
          simp only [List.mem_singleton, exists_eq_left, hph, true_iff]
          rw [show s.wupCnt + 0 + 1 = s.avgInt by omega]
        | succ k =>
          simp only [List.getElem?_cons_succ] at hout
          obtain ⟨hlen, hiff⟩ := hk k o hout
          refine ⟨hlen, hiff.trans ?_⟩
          rw [hw1, ha1, zero_add,
            show s.wupCnt + (k + 1) + 1 = (k + 1) + s.avgInt by omega]
          exact (Nat.dvd_add_self_right).symm
    · obtain ⟨hw1, hm1, hout1, -⟩ := hno hc
      obtain ⟨s2, outs, hr, hl, ha, hwup, hreset, hk⟩ := ih s1 (by omega) (by omega) (by omega)
      refine ⟨s2, out :: outs, measure_run_cons _ _ _ _ _ _ _ hm hr, by simp [hl], by omega,
        ?_, ?_, ?_⟩
      · rw [hwup, hw1, ha1]
        simp only [List.length_cons]
        rw [show s.wupCnt + 1 + raws.length = s.wupCnt + (raws.length + 1) by omega]
      · intro _ h
        exact hreset (fun h0 => by omega) h
      · intro k o hout
        cases k with
        | zero =>
          simp only [List.getElem?_cons_zero, Option.some.injEq] at hout
          subst hout
          subst hout1
          refine ⟨by simp, ?_⟩
          simp only [List.not_mem_nil, false_and, exists_false, false_iff]
          intro hd
          have := Nat.le_of_dvd (by omega) hd
          omega
        | succ k =>
          simp only [List.getElem?_cons_succ] at hout
          obtain ⟨hlen, hiff⟩ := hk k o hout
          refine ⟨hlen, hiff.trans ?_⟩
          rw [hw1, ha1, show s.wupCnt + 1 + k + 1 = s.wupCnt + (k + 1) + 1 by omega]

/-- C3: for every averaging factor `avgInt >= 1` and every sequence of raw
counts, starting with `wupCnt = 0`, all calls of `measure_humidity` return, and
the k-th call (index `k - 1` of the outputs) sends a humidity status report if
and only if `k` is a multiple of `avgInt`; no call sends more than one
packet. -/
theorem sensor_report_cadence (s : State) (raws : List Nat) (h1 : 1 ≤ s.avgInt)
    (h2 : s.avgInt < U16) (hw : s.wupCnt = 0) :
    ∃ s' outs, measure_run s raws = some (s', outs) ∧ outs.length = raws.length ∧
      ∀ k out, outs[k]? = some out →
        out.length ≤ 1 ∧ ((∃ p ∈ out, p.isHumidity = true) ↔ s.avgInt ∣ k + 1) := by
  obtain ⟨s', outs, hr, hl, -, -, -, hk⟩ := measure_run_cadence raws s h1 h2 (by omega)
  refine ⟨s', outs, hr, hl, ?_⟩
  intro k out hout
  have := hk k out hout
  rwa [hw, zero_add] at this

/-- Witness of C3: six calls from the initial state (`avgInt = 3`). -/
theorem sensor_report_cadence_witness :
    ∃ s' outs, measure_run (init_state 7 100) [30000, 30000, 30000, 32000, 32000, 32000] =
        some (s', outs) ∧ outs.length = 6 ∧
      ∀ k out, outs[k]? = some out →
        out.length ≤ 1 ∧ ((∃ p ∈ out, p.isHumidity = true) ↔ 3 ∣ k + 1) :=
  sensor_report_cadence (init_state 7 100) [30000, 30000, 30000, 32000, 32000, 32000]
    (by decide) (by decide) (by decide)

/-! ## Mean value (C4) -/

theorem measure_run_append : ∀ (a b : List Nat) (s s1 s2 : State)
    (o1 o2 : List (List Packet)), measure_run s a = some (s1, o1) →
    measure_run s1 b = some (s2, o2) → measure_run s (a ++ b) = some (s2, o1 ++ o2) := by
  intro a
  induction a with
  | nil =>
    intro b s s1 s2 o1 o2 h1 h2
    simp only [measure_run, Option.some.injEq, Prod.mk.injEq] at h1
    obtain ⟨rfl, rfl⟩ := h1
    simpa using h2
  | cons x a ih =>
    intro b s s1 s2 o1 o2 h1 h2
    simp only [measure_run] at h1
    cases hx : measure_humidity s x with
    | none => simp [hx] at h1
    | some r1 =>
      obtain ⟨t, out⟩ := r1
      simp only [hx] at h1
      cases ha : measure_run t a with
      | none => simp [ha] at h1
      | some r2 =>
        obtain ⟨t2, outs⟩ := r2
        simp only [ha, Option.some.injEq, Prod.mk.injEq] at h1
        obtain ⟨rfl, rfl⟩ := h1
        have := ih b t t2 s2 outs o2 ha h2
        exact measure_run_cons _ _ _ _ _ _ _ hx this

theorem sum_le_of_lt_U16 : ∀ (raws : List Nat), (∀ x ∈ raws, x < U16) →
    raws.sum ≤ raws.length * 65535 := by
  intro raws
  induction raws with
  | nil => intro _; simp
  | cons x raws ih =>
    intro h
    have hx : x < U16 := h x (List.mem_cons_self _ _)
    have hU : U16 = 65536 := rfl
    have := ih (fun y hy => h y (List.mem_cons_of_mem _ hy))
    simp only [List.sum_cons, List.length_cons]
    omega

/-- Calls that do not complete the averaging period add their raw counts to the
accumulator, as long as the sum stays below `2 ^ 32`. -/
theorem measure_run_accumulate : ∀ (raws : List Nat) (s : State), s.avgInt < U16 →
    s.wupCnt + raws.length < s.avgInt → (∀ x ∈ raws, x < U16) →
    s.counter_meas + raws.sum < U32 →
    ∃ s' outs, measure_run s raws = some (s', outs) ∧ s'.avgInt = s.avgInt ∧
      s'.wupCnt = s.wupCnt + raws.length ∧ s'.counter_meas = s.counter_meas + raws.sum ∧
      s'.counter_min = s.counter_min ∧ ∀ out ∈ outs, out = [] := by
  intro raws
  induction raws with
  | nil => intro s _ _ _ _; exact ⟨s, [], rfl, rfl, rfl, by simp, rfl, by simp⟩
  | cons raw raws ih =>
    intro s h2 hw hraws hsum
    simp only [List.length_cons, List.sum_cons] at hw hsum
    have hraw : raw < U16 := hraws raw (List.mem_cons_self _ _)
    obtain ⟨s1, out, hm, ha1, -, hno⟩ := measure_humidity_step s raw (by omega) h2 (by omega)
    obtain ⟨hw1, hm1, hout1, hmin1⟩ := hno (by omega)
    have hacc : accumulated s raw = s.counter_meas + raw := by
      unfold accumulated
      rw [Nat.mod_eq_of_lt hraw, Nat.mod_eq_of_lt (by omega)]
    obtain ⟨s2, outs, hr, ha, hwup, hmeas, hmin, houts⟩ := ih s1 (by omega) (by omega)
      (fun y hy => hraws y (List.mem_cons_of_mem _ hy)) (by omega)
    refine ⟨s2, out :: outs, measure_run_cons _ _ _ _ _ _ _ hm hr, by omega, ?_, ?_, by omega, ?_⟩
    · simp only [List.length_cons]; omega
    · simp only [List.sum_cons]; omega
    · intro o ho
      rcases List.mem_cons.mp ho with rfl | ho
      · exact hout1
      · exact houts o ho

/-- C4: for every `avgInt` in 1..65535 and every sequence of 16-bit raw counts,
after any number of completed averaging periods (`pre`) the accumulator holds
exactly the sum of the raw counts taken since the last reset, without wrapping,
and the call that completes the period computes
`avg = floor (sum of the last avgInt raw counts / avgInt)` in exact arithmetic;
that call returns, lowers `counter_min` to at most this mean and reports the
value normalised from it. -/
theorem mean_value (s : State) (pre raws : List Nat) (r : Nat)
    (h1 : 1 ≤ s.avgInt) (h2 : s.avgInt < U16) (hw : s.wupCnt = 0) (hm : s.counter_meas = 0)
    (hpre : s.avgInt ∣ pre.length) (hlen : raws.length < s.avgInt)
    (hraws : ∀ x ∈ raws, x < U16) (hr : r < U16) :
    ∃ s' outs, measure_run s (pre ++ raws) = some (s', outs) ∧
      s'.avgInt = s.avgInt ∧ s'.wupCnt = raws.length ∧ s'.counter_meas = raws.sum ∧
      accumulated s' r = raws.sum + r ∧
      (raws.length + 1 = s.avgInt →
        completes s' ∧ avg s' r = (raws.sum + r) / s.avgInt ∧
        ∃ s'' p, measure_humidity s' r = some (s'', [p]) ∧
          s''.counter_min = min s'.counter_min ((raws.sum + r) / s.avgInt) ∧
          p.hum? = some ((permill s'.counter_thr s''.counter_min
            ((raws.sum + r) / s.avgInt)).map (· % U16))) := by
  have hU16 : U16 = 65536 := rfl
  have hU32 : U32 = 4294967296 := rfl
  obtain ⟨s0, o0, hr0, -, ha0, hw0, hreset0, -⟩ := measure_run_cadence pre s h1 h2 (by omega)
  have hw0' : s0.wupCnt = 0 := by
    rw [hw0, hw, zero_add]
    exact Nat.mod_eq_zero_of_dvd hpre
  have hm0 : s0.counter_meas = 0 := hreset0 (fun _ => hm) hw0'
  have hbound := sum_le_of_lt_U16 raws hraws
  have hlen' : raws.length ≤ 65534 := by omega
  have hprod : raws.length * 65535 ≤ 65534 * 65535 := Nat.mul_le_mul_right _ hlen'
  obtain ⟨s', o1, hr1, ha1, hw1, hm1, -, -⟩ := measure_run_accumulate raws s0 (by omega)
    (by omega) hraws (by omega)
  have hacc : accumulated s' r = raws.sum + r := by
    unfold accumulated
    rw [Nat.mod_eq_of_lt hr, Nat.mod_eq_of_lt (by omega)]
    omega
  refine ⟨s', o0 ++ o1, measure_run_append _ _ _ _ _ _ _ hr0 hr1, by omega, by omega, by omega,
    hacc, ?_⟩
  intro hfull
  have hc : completes s' := (completes_iff s' (by omega) (by omega)).mpr (by omega)
  have havg : avg s' r = (raws.sum + r) / s.avgInt := by
    unfold avg
    rw [hacc, ha1, ha0]
  refine ⟨hc, havg, _, _, measure_humidity_completes s' r hc (by omega), ?_, ?_⟩
  · simp only [havg]
  · simp only [Packet.hum?, havg]

/-- Witness of C4: the second averaging period of the initial state
(`avgInt = 3`) with the raw counts 32000, 32001, 32002. -/
theorem mean_value_witness :
    ∃ s' outs, measure_run (init_state 7 100) ([30000, 30000, 30000] ++ [32000, 32001]) =
        some (s', outs) ∧
      s'.avgInt = 3 ∧ s'.wupCnt = 2 ∧ s'.counter_meas = 64001 ∧
      accumulated s' 32002 = 64001 + 32002 ∧
      (2 + 1 = 3 →
        completes s' ∧ avg s' 32002 = (64001 + 32002) / 3 ∧
        ∃ s'' p, measure_humidity s' 32002 = some (s'', [p]) ∧
          s''.counter_min = min s'.counter_min ((64001 + 32002) / 3) ∧
          p.hum? = some ((permill s'.counter_thr s''.counter_min
            ((64001 + 32002) / 3)).map (· % U16))) :=
  mean_value (init_state 7 100) [30000, 30000, 30000] [32000, 32001] 32002
    (by decide) (by decide) (by decide) (by decide) (by decide) (by decide) (by decide)
    (by decide)

/-! ## Normalised value: bound, dry threshold, degenerate range (C5, C6, C7) -/

/-- The narrowing of the normalised value to `uint16_t` does not change it. -/
theorem permill_narrow (thr b a : Nat) (hthr : thr < U32) (hb : b ≤ a) :
    (permill thr b a).map (· % U16) = permill thr b a := by
  cases hp : permill thr b a with
  | none => rfl
  | some h =>
    have hle := permill_le_1000 thr b a h hthr hb hp
    have hU : U16 = 65536 := rfl
    simp only [Option.map_some', Option.some.injEq]
    exact Nat.mod_eq_of_lt (by omega)

/-- The call that completes an averaging period, for a well-formed state: the
new baseline and the reported value. -/
theorem measure_humidity_report (s : State) (raw : Nat) (hwf : s.wf) (hc : completes s)
    (h0 : s.avgInt ≠ 0) :
    ∃ s', measure_humidity s raw =
        some (s', [Packet.humidity s.device_id s'.packetcounter
          (permill s.counter_thr s'.counter_min (avg s raw)) 0]) ∧
      s'.counter_min = min s.counter_min (avg s raw) ∧ s'.counter_thr = s.counter_thr ∧
      s'.wupCnt = 0 ∧ s'.counter_meas = 0 := by
  obtain ⟨-, -, -, -, hthr, -⟩ := hwf
  refine ⟨{ s with
              counter_min := min s.counter_min (avg s raw)
              counter_meas := 0
              wupCnt := 0
              packetcounter := (s.packetcounter + 1) % U32 }, ?_, rfl, rfl, rfl, rfl⟩
  rw [measure_humidity_completes s raw hc h0,
    permill_narrow _ _ _ hthr (Nat.min_le_right _ _)]

/-- Every humidity value reported by a well-formed state is either undefined
(zero divisor) or at most 1000. -/
theorem reported_humidity_bounded (s s' : State) (raw : Nat) (p : Packet) (out : List Packet)
    (hwf : s.wf) (hm : measure_humidity s raw = some (s', out)) (hp : p ∈ out) :
    ∃ sid pc hum, p = Packet.humidity sid pc hum 0 ∧ ∀ h, hum = some h → h ≤ 1000 := by
  by_cases hc : completes s
  · by_cases h0 : s.avgInt = 0
    · unfold completes at hc
      simp [measure_humidity, hc, h0] at hm
    · obtain ⟨t, ht, hmin, -⟩ := measure_humidity_report s raw hwf hc h0
      rw [ht] at hm
      simp only [Option.some.injEq, Prod.mk.injEq] at hm
      obtain ⟨rfl, rfl⟩ := hm
      simp only [List.mem_singleton] at hp
      refine ⟨_, _, _, hp, ?_⟩
      intro h hh
      obtain ⟨-, -, -, -, hthr, -⟩ := hwf
      exact permill_le_1000 _ _ _ h hthr (by rw [hmin]; exact Nat.min_le_right _ _) hh
  · rw [measure_humidity_idle s raw hc] at hm
    simp only [Option.some.injEq, Prod.mk.injEq] at hm
    obtain ⟨-, rfl⟩ := hm
    simp at hp

/-- C5 (code at the failing input): from the initial state (`counter_thr = 35000`,
`counter_min = 100000`, `avgInt = 3`) three raw counts of 35000 give the mean
35000, the baseline is lowered to 35000 and line 190 divides by
`counter_thr - counter_min = 0`: the third call sends a humidity report whose
value is the undefined quotient, not a value in `[0, 1000]`. -/
theorem humidity_unbounded_at_zero_divisor :
    (init_state 7 100).wf ∧
    measure_run (init_state 7 100) [35000, 35000, 35000] =
      some ({ init_state 7 100 with counter_min := 35000, packetcounter := 101 },
        [[], [], [Packet.humidity 7 101 none 0]]) := by
  decide

/-- C6 (code at the failing input): with `counter_thr = 35000`, a prior baseline
of 100000 and an averaging period whose mean is exactly 35000 (the threshold),
line 184 tests `avg > counter_thr`, the quotient of line 190 is taken with the
divisor zero and the result is not 0; a mean of 35001 gives 0. -/
theorem dry_threshold_at_equality :
    avg { init_state 7 100 with counter_meas := 70000, wupCnt := 2 } 35001 = 35000 ∧
    measure_humidity { init_state 7 100 with counter_meas := 70000, wupCnt := 2 } 35001 =
      some ({ init_state 7 100 with counter_min := 35000, packetcounter := 101 },
        [Packet.humidity 7 101 none 0]) ∧
    avg { init_state 7 100 with counter_meas := 70000, wupCnt := 2 } 35003 = 35001 ∧
    measure_humidity { init_state 7 100 with counter_meas := 70000, wupCnt := 2 } 35003 =
      some ({ init_state 7 100 with counter_min := 35001, packetcounter := 101 },
        [Packet.humidity 7 101 (some 0) 0]) := by
  decide

/-- C7 (code at the failing input): there is no branch for a threshold equal to
the baseline.  With both at 35000 a mean of 35000 reaches the division of line
190 with the divisor zero, and a mean of 40000 gives 0 through the branch of
line 184; the result is 1000 in neither case.  From the initial state the first
case is reached by three raw counts of 35000 and the second by three further
counts of 40000. -/
theorem degenerate_range_not_handled :
    permill 35000 35000 35000 = none ∧ permill 35000 35000 40000 = some 0 ∧
    measure_run (init_state 7 100) [35000, 35000, 35000, 40000, 40000, 40000] =
      some ({ init_state 7 100 with counter_min := 35000, packetcounter := 102 },
        [[], [], [Packet.humidity 7 101 none 0], [], [], [Packet.humidity 7 102 (some 0) 0]]) := by
  decide

/-! ## Normalisation formula (C8) -/

/-- The report of a completed period whose mean is below the threshold: the
divisor of line 190 is positive and the value is the quotient of the 32-bit
product. -/
theorem report_below_threshold (s : State) (raw : Nat) (hwf : s.wf) (hc : completes s)
    (h0 : s.avgInt ≠ 0) (hlt : avg s raw < s.counter_thr) :
    ∃ s', measure_humidity s raw =
        some (s', [Packet.humidity s.device_id s'.packetcounter
          (some ((s.counter_thr - avg s raw) * 1000 % U32 / (s.counter_thr - s'.counter_min)))
          0]) ∧
      s'.counter_min = min s.counter_min (avg s raw) := by
  obtain ⟨s', hm, hmin, -⟩ := measure_humidity_report s raw hwf hc h0
  obtain ⟨-, -, -, -, hthr, -⟩ := hwf
  have hb : s'.counter_min ≤ avg s raw := by rw [hmin]; exact Nat.min_le_right _ _
  have hp := permill_of_le s.counter_thr s'.counter_min (avg s raw) hthr hb (by omega)
  rw [if_neg (by omega)] at hp
  rw [hp] at hm
  exact ⟨s', hm, hmin⟩

/-- C8 (amended): for every 32-bit threshold, every prior baseline and every
averaged reading `mean` below the threshold, the value reported by
`measure_humidity` is
`floor (((threshold - mean) * 1000 mod 2 ^ 32) / (threshold - baseline))` with
`baseline` the updated `counter_min` (which is at most `mean`); it equals
`floor ((threshold - mean) * 1000 / (threshold - baseline))` in exact arithmetic
whenever the product `(threshold - mean) * 1000` is below `2 ^ 32`. -/
theorem normalization_formula (s : State) (raw : Nat) (hwf : s.wf) (hc : completes s)
    (h0 : s.avgInt ≠ 0) (hlt : avg s raw < s.counter_thr) :
    ∃ s' h, measure_humidity s raw =
        some (s', [Packet.humidity s.device_id s'.packetcounter (some h) 0]) ∧
      s'.counter_min = min s.counter_min (avg s raw) ∧
      h = (s.counter_thr - avg s raw) * 1000 % 2 ^ 32 / (s.counter_thr - s'.counter_min) ∧
      ((s.counter_thr - avg s raw) * 1000 < 2 ^ 32 →
        h = (s.counter_thr - avg s raw) * 1000 / (s.counter_thr - s'.counter_min)) := by
  obtain ⟨s', hm, hmin⟩ := report_below_threshold s raw hwf hc h0 hlt
  have hU : U32 = 2 ^ 32 := by norm_num
  refine ⟨s', _, hm, hmin, by rw [hU], ?_⟩
  intro hnw
  rw [hU, Nat.mod_eq_of_lt hnw]

/-- Witness of C8 (amended): threshold 35000, baseline 30000, mean 32000. -/
theorem normalization_formula_witness :
    ∃ s' h, measure_humidity
        { init_state 7 100 with counter_min := 30000, counter_meas := 64000, wupCnt := 2 } 32000 =
        some (s', [Packet.humidity 7 s'.packetcounter (some h) 0]) ∧
      s'.counter_min = min 30000 32000 ∧
      h = (35000 - 32000) * 1000 % 2 ^ 32 / (35000 - s'.counter_min) ∧
      ((35000 - 32000) * 1000 < 2 ^ 32 →
        h = (35000 - 32000) * 1000 / (35000 - s'.counter_min)) :=
  normalization_formula
    { init_state 7 100 with counter_min := 30000, counter_meas := 64000, wupCnt := 2 } 32000
    (by decide) (by decide) (by decide) (by decide)

/-- Counterexample to C8 as stated: with threshold 5000000, baseline 0 and mean
0 the 32-bit product `5000000 * 1000` wraps and the reported value is 141,
while the exact quotient is 1000. -/
theorem normalization_formula_counterexample :
    ({ init_state 7 100 with counter_thr := 5000000, counter_min := 0, avgInt := 1 } : State).wf ∧
    avg { init_state 7 100 with counter_thr := 5000000, counter_min := 0, avgInt := 1 } 0 = 0 ∧
    measure_humidity
        { init_state 7 100 with counter_thr := 5000000, counter_min := 0, avgInt := 1 } 0 =
      some ({ init_state 7 100 with
                counter_thr := 5000000, counter_min := 0, avgInt := 1, packetcounter := 101 },
        [Packet.humidity 7 101 (some 141) 0]) ∧
    (5000000 - 0) * 1000 / (5000000 - 0) = 1000 := by
  decide

/-! ## Monotonicity of the normalised value (C9) -/

/-- Monotonicity of the quotient of line 190 in the mean, without wrapping. -/
theorem quotient_antitone (thr b m1 m2 : Nat) (hb : b ≤ m1) (h12 : m1 < m2) (h2 : m2 < thr) :
    (thr - m2) * 1000 / (thr - b) ≤ (thr - m1) * 1000 / (thr - b) ∧
      (thr - b ≤ 1000 → (thr - m2) * 1000 / (thr - b) < (thr - m1) * 1000 / (thr - b)) := by
  have hd : 0 < thr - b := by omega
  refine ⟨Nat.div_le_div_right (Nat.mul_le_mul_right _ (by omega)), ?_⟩
  intro hsmall
  have hstep : (thr - m2) * 1000 + (thr - b) ≤ (thr - m1) * 1000 := by
    have : thr - m1 = (thr - m2) + (m2 - m1) := by omega
    rw [this, Nat.add_mul]
    have : 1000 ≤ (m2 - m1) * 1000 := Nat.le_mul_of_pos_left _ (by omega)
    omega
  calc (thr - m2) * 1000 / (thr - b) < (thr - m2) * 1000 / (thr - b) + 1 := Nat.lt_succ_self _
    _ = ((thr - m2) * 1000 + (thr - b)) / (thr - b) := (Nat.add_div_right _ hd).symm
    _ ≤ (thr - m1) * 1000 / (thr - b) := Nat.div_le_div_right hstep

/-- C9 (amended): for a fixed threshold and baseline with `baseline < threshold`
and `(threshold - baseline) * 1000 < 2 ^ 32`, and two averaged readings
`m1 < m2` both in `[baseline, threshold)`, the value reported for `m2` is less
than or equal to the value reported for `m1`; it is strictly smaller whenever
`threshold - baseline <= 1000`. -/
theorem normalized_decreasing (s1 s2 : State) (raw1 raw2 : Nat) (hwf1 : s1.wf) (hwf2 : s2.wf)
    (hc1 : completes s1) (hc2 : completes s2) (h01 : s1.avgInt ≠ 0) (h02 : s2.avgInt ≠ 0)
    (hthr : s2.counter_thr = s1.counter_thr) (hmin : s2.counter_min = s1.counter_min)
    (hb : s1.counter_min ≤ avg s1 raw1) (h12 : avg s1 raw1 < avg s2 raw2)
    (hlt : avg s2 raw2 < s1.counter_thr)
    (hnw : (s1.counter_thr - s1.counter_min) * 1000 < 2 ^ 32) :
    ∃ s1' s2' v1 v2,
      measure_humidity s1 raw1 =
        some (s1', [Packet.humidity s1.device_id s1'.packetcounter (some v1) 0]) ∧
      measure_humidity s2 raw2 =
        some (s2', [Packet.humidity s2.device_id s2'.packetcounter (some v2) 0]) ∧
      v2 ≤ v1 ∧ (s1.counter_thr - s1.counter_min ≤ 1000 → v2 < v1) := by
  have hnw1 : (s1.counter_thr - avg s1 raw1) * 1000 < 2 ^ 32 :=
    lt_of_le_of_lt (Nat.mul_le_mul_right _ (by omega)) hnw
  have hnw2 : (s2.counter_thr - avg s2 raw2) * 1000 < 2 ^ 32 := by
    rw [hthr]
    exact lt_of_le_of_lt (Nat.mul_le_mul_right _ (by omega)) hnw
  obtain ⟨s1', hm1, hmin1⟩ := report_below_threshold s1 raw1 hwf1 hc1 h01 (by omega)
  obtain ⟨s2', hm2, hmin2⟩ := report_below_threshold s2 raw2 hwf2 hc2 h02 (by omega)
  have e1 : s1'.counter_min = s1.counter_min := by rw [hmin1]; omega
  have e2 : s2'.counter_min = s1.counter_min := by rw [hmin2, hmin]; omega
  have hU : U32 = 2 ^ 32 := by norm_num
  rw [hU, Nat.mod_eq_of_lt hnw1, e1] at hm1
  rw [hU, Nat.mod_eq_of_lt hnw2, e2, hthr] at hm2
  have q := quotient_antitone s1.counter_thr s1.counter_min (avg s1 raw1) (avg s2 raw2) hb h12 hlt
  exact ⟨s1', s2', _, _, hm1, hm2, q.1, q.2⟩

/-- Witness of C9 (amended): threshold 35000, baseline 34500, means 34600 and
34700. -/
theorem normalized_decreasing_witness :
    ∃ s1' s2' v1 v2,
      measure_humidity
          { init_state 7 100 with counter_min := 34500, counter_meas := 69200, wupCnt := 2 }
          34600 =
        some (s1', [Packet.humidity 7 s1'.packetcounter (some v1) 0]) ∧
      measure_humidity
          { init_state 7 100 with counter_min := 34500, counter_meas := 69400, wupCnt := 2 }
          34700 =
        some (s2', [Packet.humidity 7 s2'.packetcounter (some v2) 0]) ∧
      v2 ≤ v1 ∧ (35000 - 34500 ≤ 1000 → v2 < v1) :=
  normalized_decreasing
    { init_state 7 100 with counter_min := 34500, counter_meas := 69200, wupCnt := 2 }
    { init_state 7 100 with counter_min := 34500, counter_meas := 69400, wupCnt := 2 }
    34600 34700 (by decide) (by decide) (by decide) (by decide) (by decide) (by decide)
    (by decide) (by decide) (by decide) (by decide) (by decide) (by decide)

/-- Counterexample to C9 as stated: with threshold 35000 and baseline 30000 the
means 30001 and 30002 are both reported as 999. -/
theorem normalized_decreasing_counterexample :
    avg { init_state 7 100 with counter_min := 30000, counter_meas := 60002, wupCnt := 2 }
      30001 = 30001 ∧
    avg { init_state 7 100 with counter_min := 30000, counter_meas := 60004, wupCnt := 2 }
      30002 = 30002 ∧
    measure_humidity
        { init_state 7 100 with counter_min := 30000, counter_meas := 60002, wupCnt := 2 }
        30001 =
      some ({ init_state 7 100 with counter_min := 30000, packetcounter := 101 },
        [Packet.humidity 7 101 (some 999) 0]) ∧
    measure_humidity
        { init_state 7 100 with counter_min := 30000, counter_meas := 60004, wupCnt := 2 }
        30002 =
      some ({ init_state 7 100 with counter_min := 30000, packetcounter := 101 },
        [Packet.humidity 7 101 (some 999) 0]) := by
  decide

/-! ## Baseline (C10) -/

/-- One call of `measure_humidity` with a non-zero `avgInt` returns and changes
the baseline by the rule of lines 177-180 only. -/
theorem measure_humidity_baseline (s : State) (raw : Nat) (h0 : s.avgInt ≠ 0) :
    ∃ s' out, measure_humidity s raw = some (s', out) ∧ s'.avgInt = s.avgInt ∧
      s'.counter_min ≤ s.counter_min ∧
      (completes s → s'.counter_min = min s.counter_min (avg s raw)) ∧
      (¬ completes s → s'.counter_min = s.counter_min) := by
  by_cases hc : completes s
  · exact ⟨_, _, measure_humidity_completes s raw hc h0, rfl, Nat.min_le_left _ _,
      fun _ => rfl, fun h => absurd hc h⟩
  · exact ⟨_, _, measure_humidity_idle s raw hc, rfl, Nat.le_refl _,
      fun h => absurd h hc, fun _ => rfl⟩

/-- Consecutive calls with a non-zero `avgInt` all return and never raise the
baseline. -/
theorem measure_run_baseline : ∀ (raws : List Nat) (s : State), s.avgInt ≠ 0 →
    ∃ s' outs, measure_run s raws = some (s', outs) ∧ s'.avgInt = s.avgInt ∧
      s'.counter_min ≤ s.counter_min := by
  intro raws
  induction raws with
  | nil => intro s _; exact ⟨s, [], rfl, rfl, Nat.le_refl _⟩
  | cons raw raws ih =>
    intro s h0
    obtain ⟨s1, out, hm, ha1, hle1, -⟩ := measure_humidity_baseline s raw h0
    obtain ⟨s2, outs, hr, ha2, hle2⟩ := ih s1 (by rw [ha1]; exact h0)
    exact ⟨s2, out :: outs, measure_run_cons _ _ _ _ _ _ _ hm hr, by rw [ha2, ha1],
      Nat.le_trans hle2 hle1⟩

/-- C10: after any sequence `pre` of calls, a further call of `measure_humidity`
returns; if it completes an averaging period with mean `avg`, `counter_min`
afterwards equals `min (counter_min before) avg`, otherwise `counter_min` is
unchanged; so `counter_min` after each call is at most `counter_min` before it,
and at most its value at the start of the sequence. -/
theorem baseline_rule (s : State) (pre : List Nat) (raw : Nat) (h0 : s.avgInt ≠ 0) :
    ∃ s1 outs s2 out, measure_run s pre = some (s1, outs) ∧
      measure_humidity s1 raw = some (s2, out) ∧
      (completes s1 → s2.counter_min = min s1.counter_min (avg s1 raw)) ∧
      (¬ completes s1 → s2.counter_min = s1.counter_min) ∧
      s2.counter_min ≤ s1.counter_min ∧ s1.counter_min ≤ s.counter_min := by
  obtain ⟨s1, outs, hr, ha1, hle1⟩ := measure_run_baseline pre s h0
  obtain ⟨s2, out, hm, -, hle2, hyes, hno⟩ :=
    measure_humidity_baseline s1 raw (by rw [ha1]; exact h0)
  exact ⟨s1, outs, s2, out, hr, hm, hyes, hno, hle2, hle1⟩

/-- Witness of C10: from the initial state, after the raw counts 30000, 30000
the third count 30000 completes the period. -/
theorem baseline_rule_witness :
    ∃ s1 outs s2 out, measure_run (init_state 7 100) [30000, 30000] = some (s1, outs) ∧
      measure_humidity s1 30000 = some (s2, out) ∧
      (completes s1 → s2.counter_min = min s1.counter_min (avg s1 30000)) ∧
      (¬ completes s1 → s2.counter_min = s1.counter_min) ∧
      s2.counter_min ≤ s1.counter_min ∧ s1.counter_min ≤ (init_state 7 100).counter_min :=
  baseline_rule (init_state 7 100) [30000, 30000] 30000 (by decide)

/-! ## Baseline frame (C11) -/

/-- C11: a call of `measure_humidity` that does not complete an averaging period
(the incremented `wupCnt` differs from `avgInt`) returns, sends nothing and
leaves `counter_min` unchanged whatever the raw count is; and whenever a call
changes `counter_min`, the call completes a period and the new value is the
averaged reading `avg`, which is below the old baseline. -/
theorem baseline_frame (s : State) (raw : Nat) :
    (¬ completes s →
      ∃ s', measure_humidity s raw = some (s', []) ∧ s'.counter_min = s.counter_min) ∧
    (∀ s' out, measure_humidity s raw = some (s', out) → s'.counter_min ≠ s.counter_min →
      completes s ∧ s'.counter_min = avg s raw ∧ avg s raw < s.counter_min) := by
  constructor
  · intro hc
    exact ⟨_, measure_humidity_idle s raw hc, rfl⟩
  · intro s' out hm hne
    by_cases hc : completes s
    · by_cases h0 : s.avgInt = 0
      · unfold completes at hc
        simp [measure_humidity, hc, h0] at hm
      · rw [measure_humidity_completes s raw hc h0] at hm
        simp only [Option.some.injEq, Prod.mk.injEq] at hm
        obtain ⟨rfl, -⟩ := hm
        simp only at hne ⊢
        refine ⟨hc, ?_, ?_⟩ <;> omega
    · rw [measure_humidity_idle s raw hc] at hm
      simp only [Option.some.injEq, Prod.mk.injEq] at hm
      obtain ⟨rfl, -⟩ := hm
      exact absurd rfl hne

/-- Witness of C11: in the initial state (baseline 100000) the raw count 20000 is
below the baseline and the call does not complete the period. -/
theorem baseline_frame_witness :
    ∃ s', measure_humidity (init_state 7 100) 20000 = some (s', []) ∧
      s'.counter_min = (init_state 7 100).counter_min :=
  (baseline_frame (init_state 7 100) 20000).1 (by decide)

/-! ## Zero averaging factor (C12) -/

/-- With `avgInt = 0` the calls before `wupCnt` wraps around only accumulate. -/
theorem measure_run_zero_avgInt : ∀ (raws : List Nat) (s : State), s.avgInt = 0 →
    s.wupCnt + raws.length < U16 →
    ∃ s' outs, measure_run s raws = some (s', outs) ∧ s'.avgInt = 0 ∧
      s'.wupCnt = s.wupCnt + raws.length ∧ s'.counter_min = s.counter_min ∧
      outs.length = raws.length ∧ ∀ out ∈ outs, out = [] := by
  intro raws
  induction raws with
  | nil => intro s h0 _; exact ⟨s, [], rfl, h0, rfl, rfl, rfl, by simp⟩
  | cons raw raws ih =>
    intro s h0 hw
    simp only [List.length_cons] at hw
    have hU : U16 = 65536 := rfl
    have hmod : (s.wupCnt + 1) % U16 = s.wupCnt + 1 := Nat.mod_eq_of_lt (by omega)
    have hc : ¬ completes s := by
      unfold completes
      rw [hmod, h0]
      omega
    have hm := measure_humidity_idle s raw hc
    rw [hmod] at hm
    obtain ⟨s2, outs, hr, ha, hwup, hmin, hl, houts⟩ :=
      ih { s with counter_meas := accumulated s raw, wupCnt := s.wupCnt + 1 } h0
        (by simp only; omega)
    refine ⟨s2, [] :: outs, measure_run_cons _ _ _ _ _ _ _ hm hr, ha, ?_, hmin, by simp [hl], ?_⟩
    · rw [hwup]; simp only [List.length_cons]; omega
    · intro o ho
      rcases List.mem_cons.mp ho with rfl | ho
      · rfl
      · exact houts o ho

/-- C12 (amended): with `avgInt = 0` the firmware does not behave as with
`avgInt = 1`: starting with `wupCnt = 0`, each of the first 65535 calls of
`measure_humidity` returns without any division, sends no report, produces no
averaged reading and leaves `counter_min` unchanged. -/
theorem zero_averaging_factor (s : State) (raws : List Nat) (h0 : s.avgInt = 0)
    (hw : s.wupCnt = 0) (hlen : raws.length ≤ 65535) :
    ∃ s' outs, measure_run s raws = some (s', outs) ∧ outs.length = raws.length ∧
      (∀ out ∈ outs, out = []) ∧ s'.wupCnt = raws.length ∧
      s'.counter_min = s.counter_min := by
  have hU : U16 = 65536 := rfl
  obtain ⟨s', outs, hr, -, hwup, hmin, hl, houts⟩ :=
    measure_run_zero_avgInt raws s h0 (by omega)
  exact ⟨s', outs, hr, hl, houts, by omega, hmin⟩

/-- Witness of C12 (amended): three calls with `avgInt = 0`. -/
theorem zero_averaging_factor_witness :
    ∃ s' outs, measure_run { init_state 7 100 with avgInt := 0 } [30000, 30000, 30000] =
        some (s', outs) ∧ outs.length = 3 ∧
      (∀ out ∈ outs, out = []) ∧ s'.wupCnt = 3 ∧ s'.counter_min = 100000 :=
  zero_averaging_factor { init_state 7 100 with avgInt := 0 } [30000, 30000, 30000]
    (by decide) (by decide) (by decide)

/-- Counterexample to C12 as stated: with `avgInt = 1` the first call sends a
report of the raw count 30000, with `avgInt = 0` the same call sends nothing;
and with `avgInt = 0` the call on which `wupCnt` wraps from 65535 to 0 reaches
`counter_meas / avgInt` with the divisor zero. -/
theorem zero_averaging_factor_counterexample :
    measure_humidity { init_state 7 100 with avgInt := 1 } 30000 =
      some ({ init_state 7 100 with avgInt := 1, counter_min := 30000, packetcounter := 101 },
        [Packet.humidity 7 101 (some 1000) 0]) ∧
    measure_humidity { init_state 7 100 with avgInt := 0 } 30000 =
      some ({ init_state 7 100 with avgInt := 0, counter_meas := 30000, wupCnt := 1 }, []) ∧
    measure_humidity { init_state 7 100 with avgInt := 0, wupCnt := 65535 } 30000 = none := by
  decide

/-! ## Default wake interval (C13) -/

/-- C13: when the stored wake-interval code is 0, `init_wakeup` configures the
timer with the default `WAKEUPINTERVAL_105S` and returns the seconds decoded
from that default, the same timer code and result as if the default itself had
been stored; the default being a code of 105 seconds, the result is 105 and not
the decoding of 0, which is 0.  For every non-zero stored code the timer is
configured with exactly the stored code. -/
theorem default_wake_interval (WAKEUPINTERVAL_105S code : Nat)
    (hdefault : wakeup_sec WAKEUPINTERVAL_105S = 105) :
    init_wakeup WAKEUPINTERVAL_105S 0 = (WAKEUPINTERVAL_105S, wakeup_sec WAKEUPINTERVAL_105S) ∧
    init_wakeup WAKEUPINTERVAL_105S 0 = init_wakeup WAKEUPINTERVAL_105S WAKEUPINTERVAL_105S ∧
    (init_wakeup WAKEUPINTERVAL_105S 0).2 = 105 ∧
    (init_wakeup WAKEUPINTERVAL_105S 0).2 ≠ wakeup_sec 0 ∧
    (code ≠ 0 → init_wakeup WAKEUPINTERVAL_105S code = (code, wakeup_sec code)) := by
  have hz : wakeup_sec 0 = 0 := by decide
  have h0 : init_wakeup WAKEUPINTERVAL_105S 0 =
      (WAKEUPINTERVAL_105S, wakeup_sec WAKEUPINTERVAL_105S) := by
    simp [init_wakeup]
  refine ⟨h0, ?_, ?_, ?_, ?_⟩
  · rw [h0]
    by_cases hD : WAKEUPINTERVAL_105S = 0
    · simp [init_wakeup, hD]
    · simp [init_wakeup, hD]
  · rw [h0]
    exact hdefault
  · rw [h0, hz]
    simp only
    omega
  · intro hc
    simp [init_wakeup, hc]

/-- Witness of C13: the default code `0x09cd` (mantissa 205, exponent 9) is a
code of 105 seconds; the stored code `0x0569` is kept. -/
theorem default_wake_interval_witness :
    init_wakeup 2509 0 = (2509, wakeup_sec 2509) ∧
    init_wakeup 2509 0 = init_wakeup 2509 2509 ∧
    (init_wakeup 2509 0).2 = 105 ∧
    (init_wakeup 2509 0).2 ≠ wakeup_sec 0 ∧
    (1385 ≠ 0 → init_wakeup 2509 1385 = (1385, wakeup_sec 1385)) :=
  default_wake_interval 2509 1385 (by decide)

/-! ## Packet counter per report (C14) -/

/-- One iteration of the loop of `main` for a non-zero `avgInt`, in terms of the
call of `measure_humidity` and the version check of line 278. -/
theorem main_cycle_eq (s : State) (raw : Nat) (h0 : s.avgInt ≠ 0) :
    ∃ s2 out, measure_humidity
        { s with send_status_timeout := (s.send_status_timeout + U16 - 1) % U16 } raw =
        some (s2, out) ∧
      s2.version_status_cycle = s.version_status_cycle ∧
      main_cycle s raw =
        if s.version_status_cycle ≥ SEND_VERSION_STATUS_CYCLE then
          some ({ s2 with
                    version_status_cycle := 0
                    packetcounter := (s2.packetcounter + 1) % U32
                    loop := (s2.loop + 1) % U8 },
            out ++ [Packet.version s2.device_id ((s2.packetcounter + 1) % U32)])
        else some ({ s2 with loop := (s2.loop + 1) % U8 }, out) := by
  obtain ⟨s2, out, hm, -, hvs, -⟩ :=
    measure_humidity_frame
      { s with send_status_timeout := (s.send_status_timeout + U16 - 1) % U16 } raw h0
  refine ⟨s2, out, hm, hvs, ?_⟩
  simp only [main_cycle, hm, hvs, send_version_status, inc_packetcounter]

/-- C14: in every wake cycle (one call of `measure_humidity` followed by the
version check of the loop of `main`) `inc_packetcounter` is applied exactly once
for each packet sent in that cycle, humidity or version, and not at all when
nothing is sent: the packet counter after the cycle is the counter before it
advanced `out.length` times, at most two packets are sent, and the counter
placed in the k-th packet of the cycle is the counter after the k-th advance. -/
theorem packet_counter_per_report (s : State) (raw : Nat) (h0 : s.avgInt ≠ 0) :
    ∃ s' out, main_cycle s raw = some (s', out) ∧ out.length ≤ 2 ∧
      s'.packetcounter = (inc_packetcounter^[out.length] s).packetcounter ∧
      ∀ k p, out[k]? = some p → p.counter = (inc_packetcounter^[k + 1] s).packetcounter := by
  obtain ⟨s2, out, hm, hvs, hmain⟩ := main_cycle_eq s raw h0
  by_cases hc : completes
      { s with send_status_timeout := (s.send_status_timeout + U16 - 1) % U16 }
  · rw [measure_humidity_completes _ raw hc h0] at hm
    simp only [Option.some.injEq, Prod.mk.injEq] at hm
    obtain ⟨rfl, rfl⟩ := hm
    by_cases hv : s.version_status_cycle ≥ SEND_VERSION_STATUS_CYCLE
    · rw [if_pos hv] at hmain
      refine ⟨_, _, hmain, by simp, by simp [inc_packetcounter], ?_⟩
      intro k p hk
      match k with
      | 0 => simp at hk; subst hk; simp [Packet.counter, inc_packetcounter]
      | 1 => simp at hk; subst hk; simp [Packet.counter, inc_packetcounter]
      | k + 2 => simp at hk
    · rw [if_neg hv] at hmain
      refine ⟨_, _, hmain, by simp, by simp [inc_packetcounter], ?_⟩
      intro k p hk
      match k with
      | 0 => simp at hk; subst hk; simp [Packet.counter, inc_packetcounter]
      | k + 1 => simp at hk
  · rw [measure_humidity_idle _ raw hc] at hm
    simp only [Option.some.injEq, Prod.mk.injEq] at hm
    obtain ⟨rfl, rfl⟩ := hm
    by_cases hv : s.version_status_cycle ≥ SEND_VERSION_STATUS_CYCLE
    · rw [if_pos hv] at hmain
      refine ⟨_, _, hmain, by simp, by simp [inc_packetcounter], ?_⟩
      intro k p hk
      match k with
      | 0 => simp at hk; subst hk; simp [Packet.counter, inc_packetcounter]
      | k + 1 => simp at hk
    · rw [if_neg hv] at hmain
      refine ⟨_, _, hmain, by simp, by simp, ?_⟩
      intro k p hk
      simp at hk

/-- Witness of C14: a wake cycle that completes an averaging period while the
version report is due sends two packets with the counters 101 and 102. -/
theorem packet_counter_per_report_witness :
    (main_cycle
        { init_state 7 100 with counter_meas := 60000, wupCnt := 2, version_status_cycle := 50 }
        30000).map Prod.snd =
      some [Packet.humidity 7 101 (some 1000) 0, Packet.version 7 102] ∧
    ∃ s' out, main_cycle
        { init_state 7 100 with counter_meas := 60000, wupCnt := 2, version_status_cycle := 50 }
        30000 = some (s', out) ∧ out.length ≤ 2 ∧
      s'.packetcounter = (inc_packetcounter^[out.length]
        { init_state 7 100 with
            counter_meas := 60000, wupCnt := 2, version_status_cycle := 50 }).packetcounter ∧
      ∀ k p, out[k]? = some p → p.counter = (inc_packetcounter^[k + 1]
        { init_state 7 100 with
            counter_meas := 60000, wupCnt := 2, version_status_cycle := 50 }).packetcounter :=
  ⟨by decide, packet_counter_per_report
    { init_state 7 100 with counter_meas := 60000, wupCnt := 2, version_status_cycle := 50 }
    30000 (by decide)⟩

/-! ## Averager state invariant (C15) -/

/-- C15: for every `avgInt >= 1`, after any sequence of calls of
`measure_humidity` that starts with `wupCnt = 0`, the state satisfies
`0 <= wupCnt < avgInt`; a further call returns and keeps this bound, and if its
incremented `wupCnt` equals `avgInt` it leaves both `wupCnt` and `counter_meas`
equal to 0. -/
theorem averager_invariant (s : State) (raws : List Nat) (raw : Nat) (h1 : 1 ≤ s.avgInt)
    (h2 : s.avgInt < U16) (hw : s.wupCnt = 0) :
    ∃ s1 outs s2 out, measure_run s raws = some (s1, outs) ∧ s1.avgInt = s.avgInt ∧
      s1.wupCnt < s1.avgInt ∧ measure_humidity s1 raw = some (s2, out) ∧
      s2.avgInt = s.avgInt ∧ s2.wupCnt < s2.avgInt ∧
      (completes s1 → s2.wupCnt = 0 ∧ s2.counter_meas = 0) := by
  obtain ⟨s1, outs, hr, -, ha1, hw1, -, -⟩ := measure_run_cadence raws s h1 h2 (by omega)
  have hlt1 : s1.wupCnt < s1.avgInt := by
    rw [hw1, ha1]
    exact Nat.mod_lt _ (by omega)
  obtain ⟨s2, out, hm, ha2, hyes, hno⟩ :=
    measure_humidity_step s1 raw (by omega) (by omega) hlt1
  refine ⟨s1, outs, s2, out, hr, ha1, hlt1, hm, by omega, ?_, ?_⟩
  · by_cases hc : s1.wupCnt + 1 = s1.avgInt
    · obtain ⟨h, -⟩ := hyes hc
      omega
    · obtain ⟨h, -⟩ := hno hc
      omega
  · intro hc
    obtain ⟨h, h', -⟩ := hyes ((completes_iff s1 (by omega) hlt1).mp hc)
    exact ⟨h, h'⟩

/-- Witness of C15: five calls from the initial state and the sixth, which
completes the second period. -/
theorem averager_invariant_witness :
    ∃ s1 outs s2 out,
      measure_run (init_state 7 100) [30000, 30000, 30000, 32000, 32000] = some (s1, outs) ∧
      s1.avgInt = 3 ∧ s1.wupCnt < s1.avgInt ∧ measure_humidity s1 32000 = some (s2, out) ∧
      s2.avgInt = 3 ∧ s2.wupCnt < s2.avgInt ∧
      (completes s1 → s2.wupCnt = 0 ∧ s2.counter_meas = 0) :=
  averager_invariant (init_state 7 100) [30000, 30000, 30000, 32000, 32000] 32000
    (by decide) (by decide) (by decide)

/-! ## End-to-end example (C16) -/

/-- The state after calls that do not complete the averaging period. -/
theorem measure_run_idle_eq : ∀ (raws : List Nat) (s : State),
    s.wupCnt + raws.length < s.avgInt → s.avgInt < U16 → (∀ x ∈ raws, x < U16) →
    s.counter_meas + raws.sum < U32 →
    measure_run s raws =
      some ({ s with
                counter_meas := s.counter_meas + raws.sum
                wupCnt := s.wupCnt + raws.length },
        List.replicate raws.length []) := by
  intro raws
  induction raws with
  | nil => intro s _ _ _ _; rfl
  | cons raw raws ih =>
    intro s hw h2 hraws hsum
    simp only [List.length_cons, List.sum_cons] at hw hsum
    have hU : U16 = 65536 := rfl
    have hraw : raw < U16 := hraws raw (List.mem_cons_self _ _)
    have hc : ¬ completes s := by
      unfold completes
      rw [Nat.mod_eq_of_lt (by omega)]
      omega
    have hacc : accumulated s raw = s.counter_meas + raw := by
      unfold accumulated
      rw [Nat.mod_eq_of_lt hraw, Nat.mod_eq_of_lt (by omega)]
    have hm := measure_humidity_idle s raw hc
    rw [hacc, Nat.mod_eq_of_lt (show s.wupCnt + 1 < U16 by omega)] at hm
    have hr := ih { s with counter_meas := s.counter_meas + raw, wupCnt := s.wupCnt + 1 }
      (by simp only; omega) h2 (fun y hy => hraws y (List.mem_cons_of_mem _ hy))
      (by simp only; omega)
    rw [measure_run_cons _ _ _ _ _ _ _ hm hr]
    simp only [List.length_cons, List.sum_cons, List.replicate_succ, Nat.add_assoc,
      Nat.add_comm 1]

/-- A whole averaging period: `avgInt - 1` calls that accumulate and the call
that completes the period. -/
theorem measure_run_period (s : State) (raws : List Nat) (r : Nat) (h2 : s.avgInt < U16)
    (hw : s.wupCnt = 0) (hm : s.counter_meas = 0) (hlen : raws.length + 1 = s.avgInt)
    (hraws : ∀ x ∈ raws, x < U16) (hr : r < U16) :
    measure_run s (raws ++ [r]) =
      some ({ s with
                counter_min := min s.counter_min ((raws.sum + r) / s.avgInt)
                counter_meas := 0
                wupCnt := 0
                packetcounter := (s.packetcounter + 1) % U32 },
        List.replicate raws.length [] ++
          [[Packet.humidity s.device_id ((s.packetcounter + 1) % U32)
            ((permill s.counter_thr (min s.counter_min ((raws.sum + r) / s.avgInt))
              ((raws.sum + r) / s.avgInt)).map (· % U16)) 0]]) := by
  have hU16 : U16 = 65536 := rfl
  have hU32 : U32 = 4294967296 := rfl
  have hbound := sum_le_of_lt_U16 raws hraws
  have hprod : raws.length * 65535 ≤ 65534 * 65535 := Nat.mul_le_mul_right _ (by omega)
  have hidle := measure_run_idle_eq raws s (by omega) h2 hraws (by omega)
  rw [hm, hw, zero_add, zero_add] at hidle
  have hc : completes { s with counter_meas := raws.sum, wupCnt := raws.length } := by
    unfold completes
    simp only
    rw [Nat.mod_eq_of_lt (by omega)]
    exact hlen
  have hacc : accumulated { s with counter_meas := raws.sum, wupCnt := raws.length } r =
      raws.sum + r := by
    unfold accumulated
    simp only
    rw [Nat.mod_eq_of_lt hr, Nat.mod_eq_of_lt (by omega)]
  have hlast := measure_humidity_completes
    { s with counter_meas := raws.sum, wupCnt := raws.length } r hc (by simp only; omega)
  simp only [avg, hacc] at hlast
  exact measure_run_append _ _ _ _ _ _ _ hidle (measure_run_cons _ _ _ _ _ _ _ hlast rfl)


/-- A call of `measure_humidity` keeps every variable within its C type and
changes neither the threshold, the averaging factor nor the device id. -/
theorem measure_humidity_wf (s s' : State) (raw : Nat) (out : List Packet) (hwf : s.wf)
    (hm : measure_humidity s raw = some (s', out)) :
    s'.wf ∧ s'.counter_thr = s.counter_thr ∧ s'.avgInt = s.avgInt ∧
      s'.device_id = s.device_id := by
  obtain ⟨w1, w2, w3, w4, w5, w6, w7, w8, w9, w10⟩ := hwf
  have hU32 : 0 < U32 := by decide
  have hU16 : 0 < U16 := by decide
  by_cases hc : completes s
  · by_cases h0 : s.avgInt = 0
    · unfold completes at hc
      simp [measure_humidity, hc, h0] at hm
    · rw [measure_humidity_completes s raw hc h0] at hm
      simp only [Option.some.injEq, Prod.mk.injEq] at hm
      obtain ⟨rfl, -⟩ := hm
      refine ⟨⟨w1, Nat.mod_lt _ hU32, w3, w4, w5, ?_, hU32, hU16, w9, w10⟩, rfl, rfl, rfl⟩
      exact lt_of_le_of_lt (Nat.min_le_left _ _) w6
  · rw [measure_humidity_idle s raw hc] at hm
    simp only [Option.some.injEq, Prod.mk.injEq] at hm
    obtain ⟨rfl, -⟩ := hm
    exact ⟨⟨w1, w2, w3, w4, w5, w6, Nat.mod_lt _ hU32, Nat.mod_lt _ hU16, w9, w10⟩,
      rfl, rfl, rfl⟩

/-- Consecutive calls from a well-formed state with a non-zero `avgInt` all
return and reach a well-formed state with the same threshold, averaging factor
and device id. -/
theorem measure_run_wf : ∀ (raws : List Nat) (s : State), s.wf → s.avgInt ≠ 0 →
    ∃ s' outs, measure_run s raws = some (s', outs) ∧ s'.wf ∧
      s'.counter_thr = s.counter_thr ∧ s'.avgInt = s.avgInt ∧ s'.device_id = s.device_id := by
  intro raws
  induction raws with
  | nil => intro s hwf _; exact ⟨s, [], rfl, hwf, rfl, rfl, rfl⟩
  | cons raw raws ih =>
    intro s hwf h0
    obtain ⟨s1, out, hm, -⟩ := measure_humidity_baseline s raw h0
    obtain ⟨hwf1, ht1, ha1, hd1⟩ := measure_humidity_wf s s1 raw out hwf hm
    obtain ⟨s2, outs, hr, hwf2, ht2, ha2, hd2⟩ := ih s1 hwf1 (by rw [ha1]; exact h0)
    exact ⟨s2, out :: outs, measure_run_cons _ _ _ _ _ _ _ hm hr, hwf2, by rw [ht2, ht1],
      by rw [ha2, ha1], by rw [hd2, hd1]⟩


/-- C16: from the initial state (`counter_thr = 35000`, `counter_min = 100000`,
`avgInt = 3`) an averaging period whose mean is 30000 sets `counter_min` to
30000 and reports 1000; a following period whose mean is 32000 leaves
`counter_min` at 30000 and reports 600.  In general, for a threshold of the
firmware's size (at most 4294967, so that the product of line 190 stays below
`2 ^ 32`), an averaged reading at or below the previous baseline and strictly
below the threshold becomes the new baseline and is reported as exactly 1000;
this holds in particular after any sequence `pre` of calls from the initial
state, where the threshold is 35000. -/
theorem end_to_end_example (device_id packetcounter r1 r2 r3 r4 r5 r6 : Nat) (s : State)
    (raw : Nat) (pre : List Nat) :
    (r1 < U16 → r2 < U16 → r3 < U16 → r4 < U16 → r5 < U16 → r6 < U16 →
      (r1 + r2 + r3) / 3 = 30000 → (r4 + r5 + r6) / 3 = 32000 →
      ∃ s1 s2 pc1 pc2,
        measure_run (init_state device_id packetcounter) [r1, r2, r3] =
          some (s1, [[], [], [Packet.humidity device_id pc1 (some 1000) 0]]) ∧
        s1.counter_min = 30000 ∧
        measure_run s1 [r4, r5, r6] =
          some (s2, [[], [], [Packet.humidity device_id pc2 (some 600) 0]]) ∧
        s2.counter_min = 30000) ∧
    (s.wf → completes s → s.avgInt ≠ 0 → s.counter_thr ≤ 4294967 →
      avg s raw ≤ s.counter_min → avg s raw < s.counter_thr →
      ∃ s', measure_humidity s raw =
          some (s', [Packet.humidity s.device_id s'.packetcounter (some 1000) 0]) ∧
        s'.counter_min = avg s raw) ∧
    (device_id < U16 → packetcounter < U32 →
      ∃ s1 outs, measure_run (init_state device_id packetcounter) pre = some (s1, outs) ∧
        (completes s1 → avg s1 raw ≤ s1.counter_min → avg s1 raw < 35000 →
          ∃ s', measure_humidity s1 raw =
              some (s', [Packet.humidity device_id s'.packetcounter (some 1000) 0]) ∧
            s'.counter_min = avg s1 raw)) := by
  have general : ∀ (s : State) (raw : Nat), s.wf → completes s → s.avgInt ≠ 0 →
      s.counter_thr ≤ 4294967 → avg s raw ≤ s.counter_min → avg s raw < s.counter_thr →
      ∃ s', measure_humidity s raw =
          some (s', [Packet.humidity s.device_id s'.packetcounter (some 1000) 0]) ∧
        s'.counter_min = avg s raw := by
    intro s raw hwf hc h0 hthr hle hlt
    obtain ⟨s', hm, hmin⟩ := report_below_threshold s raw hwf hc h0 hlt
    have hmin' : s'.counter_min = avg s raw := by rw [hmin]; omega
    have hU : U32 = 4294967296 := rfl
    have hnw : (s.counter_thr - avg s raw) * 1000 < U32 := by omega
    rw [Nat.mod_eq_of_lt hnw, hmin', Nat.mul_div_cancel_left 1000 (by omega)] at hm
    exact ⟨s', hm, hmin'⟩
  refine ⟨?_, general s raw, ?_⟩
  · intro h1 h2 h3 h4 h5 h6 hm1 hm2
    have hv1 : Option.map (· % U16) (permill 35000 (min 100000 30000) 30000) = some 1000 := by
      decide
    have hv2 : Option.map (· % U16) (permill 35000 (min 30000 32000) 32000) = some 600 := by
      decide
    have hmin1 : min 100000 30000 = 30000 := by decide
    have hmin2 : min 30000 32000 = 30000 := by decide
    have hs1 : (r1 + (r2 + 0) + r3) / 3 = 30000 := by rw [add_zero]; exact hm1
    have hs2 : (r4 + (r5 + 0) + r6) / 3 = 32000 := by rw [add_zero]; exact hm2
    have p1 : measure_run (init_state device_id packetcounter) [r1, r2, r3] =
        some ({ init_state device_id packetcounter with
                  counter_min := min 100000 ((r1 + (r2 + 0) + r3) / 3)
                  counter_meas := 0
                  wupCnt := 0
                  packetcounter := (packetcounter + 1) % U32 },
          [[], [], [Packet.humidity device_id ((packetcounter + 1) % U32)
            (Option.map (· % U16) (permill 35000 (min 100000 ((r1 + (r2 + 0) + r3) / 3))
              ((r1 + (r2 + 0) + r3) / 3))) 0]]) :=
      measure_run_period (init_state device_id packetcounter) [r1, r2] r3
        (show (3 : Nat) < U16 by decide) rfl rfl rfl
        (by intro x hx; simp only [List.mem_cons, List.mem_singleton, List.not_mem_nil,
              or_false] at hx; rcases hx with rfl | rfl <;> assumption) h3
    rw [hs1, hv1, hmin1] at p1
    have p2 : measure_run
        { init_state device_id packetcounter with
            counter_min := 30000
            counter_meas := 0
            wupCnt := 0
            packetcounter := (packetcounter + 1) % U32 } [r4, r5, r6] =
        some ({ init_state device_id packetcounter with
                  counter_min := min 30000 ((r4 + (r5 + 0) + r6) / 3)
                  counter_meas := 0
                  wupCnt := 0
                  packetcounter := ((packetcounter + 1) % U32 + 1) % U32 },
          [[], [], [Packet.humidity device_id (((packetcounter + 1) % U32 + 1) % U32)
            (Option.map (· % U16) (permill 35000 (min 30000 ((r4 + (r5 + 0) + r6) / 3))
              ((r4 + (r5 + 0) + r6) / 3))) 0]]) :=
      measure_run_period
        { init_state device_id packetcounter with
            counter_min := 30000
            counter_meas := 0
            wupCnt := 0
            packetcounter := (packetcounter + 1) % U32 } [r4, r5] r6
        (show (3 : Nat) < U16 by decide) rfl rfl rfl
        (by intro x hx; simp only [List.mem_cons, List.mem_singleton, List.not_mem_nil,
              or_false] at hx; rcases hx with rfl | rfl <;> assumption) h6
    rw [hs2, hv2, hmin2] at p2
    exact ⟨_, _, _, _, p1, rfl, p2, rfl⟩
  · intro hd hpc
    have hwf0 : (init_state device_id packetcounter).wf := by
      exact ⟨hd, hpc, show (5 : Nat) < U16 by decide, show (49 : Nat) < U8 by decide,
        show (35000 : Nat) < U32 by decide, show (100000 : Nat) < U32 by decide,
        show (0 : Nat) < U32 by decide, show (0 : Nat) < U16 by decide,
        show (3 : Nat) < U16 by decide, show (0 : Nat) < U8 by decide⟩
    obtain ⟨s1, outs, hr, hwf1, ht1, ha1, hd1⟩ :=
      measure_run_wf pre (init_state device_id packetcounter) hwf0 (by simp [init_state])
    have ht : s1.counter_thr = 35000 := ht1
    have ha : s1.avgInt = 3 := ha1
    have hdev : s1.device_id = device_id := hd1
    refine ⟨s1, outs, hr, ?_⟩
    intro hc hle hlt
    have := general s1 raw hwf1 hc (by omega) (by omega) hle (by omega)
    rwa [hdev] at this

/-- Witness of C16: the raw counts 29999, 30000, 30001 (mean 30000) followed by
32000, 32001, 32001 (mean 32000) from the initial state, and the general rule
at the third call of the first period. -/
theorem end_to_end_example_witness :
    (∃ s1 s2 pc1 pc2,
        measure_run (init_state 7 100) [29999, 30000, 30001] =
          some (s1, [[], [], [Packet.humidity 7 pc1 (some 1000) 0]]) ∧
        s1.counter_min = 30000 ∧
        measure_run s1 [32000, 32001, 32001] =
          some (s2, [[], [], [Packet.humidity 7 pc2 (some 600) 0]]) ∧
        s2.counter_min = 30000) ∧
    (∃ s', measure_humidity { init_state 7 100 with counter_meas := 59999, wupCnt := 2 } 30001 =
          some (s', [Packet.humidity 7 s'.packetcounter (some 1000) 0]) ∧
        s'.counter_min =
          avg { init_state 7 100 with counter_meas := 59999, wupCnt := 2 } 30001) ∧
    (∃ s1 outs, measure_run (init_state 7 100) [29999, 30000] = some (s1, outs) ∧
        (completes s1 → avg s1 30001 ≤ s1.counter_min → avg s1 30001 < 35000 →
          ∃ s', measure_humidity s1 30001 =
              some (s', [Packet.humidity 7 s'.packetcounter (some 1000) 0]) ∧
            s'.counter_min = avg s1 30001)) :=
  ⟨(end_to_end_example 7 100 29999 30000 30001 32000 32001 32001
      { init_state 7 100 with counter_meas := 59999, wupCnt := 2 } 30001 [29999, 30000]).1
      (by decide) (by decide) (by decide) (by decide) (by decide) (by decide) (by decide)
      (by decide),
    (end_to_end_example 7 100 29999 30000 30001 32000 32001 32001
      { init_state 7 100 with counter_meas := 59999, wupCnt := 2 } 30001 [29999, 30000]).2.1
      (by decide) (by decide) (by decide) (by decide) (by decide) (by decide),
    (end_to_end_example 7 100 29999 30000 30001 32000 32001 32001
      { init_state 7 100 with counter_meas := 59999, wupCnt := 2 } 30001 [29999, 30000]).2.2
      (by decide) (by decide)⟩

/-! ## Version report after startup (C17) -/

/-- C17 (code at the failing input): the first iteration of the loop of `main`
from the initial state sends no version status report, indeed no packet at all:
`version_status_cycle` starts at `SEND_VERSION_STATUS_CYCLE - 1 = 49`, nothing
increments it, and line 278 tests `version_status_cycle >= 50`. -/
theorem no_version_report_after_startup (device_id packetcounter raw : Nat) :
    ∃ s', main_cycle (init_state device_id packetcounter) raw = some (s', []) ∧
      s'.version_status_cycle = 49 ∧ s'.packetcounter = packetcounter := by
  have h0 : (init_state device_id packetcounter).avgInt ≠ 0 := by simp [init_state]
  obtain ⟨s2, out, hm, hvs, hmain⟩ := main_cycle_eq (init_state device_id packetcounter) raw h0
  have hc : ¬ completes
      { init_state device_id packetcounter with
          send_status_timeout :=
            ((init_state device_id packetcounter).send_status_timeout + U16 - 1) % U16 } := by
    simp [completes, init_state]
  rw [measure_humidity_idle _ raw hc] at hm
  simp only [Option.some.injEq, Prod.mk.injEq] at hm
  obtain ⟨rfl, rfl⟩ := hm
  have hv : ¬ (init_state device_id packetcounter).version_status_cycle ≥
      SEND_VERSION_STATUS_CYCLE := by
    simp [init_state, SEND_VERSION_STATUS_CYCLE]
  rw [if_neg hv] at hmain
  exact ⟨_, hmain, rfl, rfl⟩

/-! ## Exact condition for the zero divisor (C18) -/

/-- C18: on a call of `measure_humidity` that completes an averaging period of a
well-formed state with mean `avg`, the division of line 190 is reached with a
zero divisor (the reported value is undefined) if and only if
`avg = counter_thr` and `counter_min` before the call is at least `counter_thr`;
in every other case in which the division is reached (`avg <= counter_thr`) the
updated `counter_min` satisfies `counter_min <= avg <= counter_thr` and
`counter_min < counter_thr`, so neither 32-bit subtraction wraps, the divisor is
positive and the quotient is reported.  The zero divisor is reached from the
initial state by three raw counts of 35000. -/
theorem zero_divisor_condition :
    (∀ (s : State) (raw : Nat), s.wf → completes s → s.avgInt ≠ 0 →
      ∃ s' hum, measure_humidity s raw =
          some (s', [Packet.humidity s.device_id s'.packetcounter hum 0]) ∧
        s'.counter_min = min s.counter_min (avg s raw) ∧
        (hum = none ↔ avg s raw = s.counter_thr ∧ s.counter_thr ≤ s.counter_min) ∧
        (avg s raw ≤ s.counter_thr →
          ¬ (avg s raw = s.counter_thr ∧ s.counter_thr ≤ s.counter_min) →
          s'.counter_min ≤ avg s raw ∧ s'.counter_min < s.counter_thr ∧
          sub32 s.counter_thr (avg s raw) = s.counter_thr - avg s raw ∧
          sub32 s.counter_thr s'.counter_min = s.counter_thr - s'.counter_min ∧
          0 < sub32 s.counter_thr s'.counter_min ∧
          hum = some (sub32 s.counter_thr (avg s raw) * 1000 % U32 /
            sub32 s.counter_thr s'.counter_min))) ∧
    measure_run (init_state 7 100) [35000, 35000, 35000] =
      some ({ init_state 7 100 with counter_min := 35000, packetcounter := 101 },
        [[], [], [Packet.humidity 7 101 none 0]]) := by
  refine ⟨?_, by decide⟩
  intro s raw hwf hc h0
  obtain ⟨s', hm, hmin, -⟩ := measure_humidity_report s raw hwf hc h0
  obtain ⟨-, -, -, -, hthr, -⟩ := hwf
  have hb : s'.counter_min ≤ avg s raw := by rw [hmin]; exact Nat.min_le_right _ _
  refine ⟨s', _, hm, hmin, ?_, ?_⟩
  · rcases Nat.lt_or_ge s.counter_thr (avg s raw) with hgt | hle
    · rw [permill_of_gt _ _ _ hgt]
      constructor
      · intro h; cases h
      · intro h; omega
    · rw [permill_of_le _ _ _ hthr hb hle]
      by_cases hz : s.counter_thr = s'.counter_min
      · rw [if_pos hz]
        constructor
        · intro _; omega
        · intro _; rfl
      · rw [if_neg hz]
        constructor
        · intro h; cases h
        · intro h; omega
  · intro hle hnot
    have hz : s.counter_thr ≠ s'.counter_min := by omega
    have e1 := sub32_eq s.counter_thr (avg s raw) hle hthr
    have e2 := sub32_eq s.counter_thr s'.counter_min (by omega) hthr
    refine ⟨hb, by omega, e1, e2, by omega, ?_⟩
    rw [permill_of_le _ _ _ hthr hb hle, if_neg hz, e1, e2]

/-- Witness of C18: the two cases at threshold 35000, a mean of 35000 with the
baseline 100000 (zero divisor) and a mean of 32000 with the baseline 30000. -/
theorem zero_divisor_condition_witness :
    (∃ s' hum, measure_humidity
          { init_state 7 100 with counter_meas := 70000, wupCnt := 2 } 35000 =
          some (s', [Packet.humidity 7 s'.packetcounter hum 0]) ∧
        (hum = none ↔
          avg { init_state 7 100 with counter_meas := 70000, wupCnt := 2 } 35000 = 35000 ∧
            35000 ≤ 100000)) ∧
    (∃ s' hum, measure_humidity
          { init_state 7 100 with counter_min := 30000, counter_meas := 64000, wupCnt := 2 }
          32000 = some (s', [Packet.humidity 7 s'.packetcounter hum 0]) ∧
        s'.counter_min < 35000 ∧
        hum = some (sub32 35000
            (avg { init_state 7 100 with
                    counter_min := 30000, counter_meas := 64000, wupCnt := 2 } 32000) *
              1000 % U32 / sub32 35000 s'.counter_min)) := by
  constructor
  · obtain ⟨s', hum, hm, -, hiff, -⟩ := zero_divisor_condition.1
      { init_state 7 100 with counter_meas := 70000, wupCnt := 2 } 35000
      (by decide) (by decide) (by decide)
    exact ⟨s', hum, hm, hiff⟩
  · obtain ⟨s', hum, hm, -, -, hrest⟩ := zero_divisor_condition.1
      { init_state 7 100 with counter_min := 30000, counter_meas := 64000, wupCnt := 2 } 32000
      (by decide) (by decide) (by decide)
    obtain ⟨-, hlt, -, -, -, hv⟩ := hrest (by decide) (by decide)
    exact ⟨s', hum, hm, hlt, hv⟩

/-! ## Weak monotonicity (C19) -/

/-- The report of a completed period whose baseline stays below the threshold,
without wrapping of the product: 0 above the threshold, the exact quotient
otherwise. -/
theorem report_with_fixed_baseline (s : State) (raw : Nat) (hwf : s.wf) (hc : completes s)
    (h0 : s.avgInt ≠ 0) (hbt : s.counter_min < s.counter_thr)
    (hnw : (s.counter_thr - s.counter_min) * 1000 < 2 ^ 32) (hb : s.counter_min ≤ avg s raw) :
    ∃ s', measure_humidity s raw =
        some (s', [Packet.humidity s.device_id s'.packetcounter
          (some ((s.counter_thr - avg s raw) * 1000 / (s.counter_thr - s.counter_min))) 0]) ∧
      s'.counter_min = s.counter_min := by
  obtain ⟨s', hm, hmin, -⟩ := measure_humidity_report s raw hwf hc h0
  obtain ⟨-, -, -, -, hthr, -⟩ := hwf
  have hmin' : s'.counter_min = s.counter_min := by rw [hmin]; omega
  rw [hmin'] at hm
  refine ⟨s', ?_, hmin'⟩
  rw [hm]
  rcases Nat.lt_or_ge s.counter_thr (avg s raw) with hgt | hle
  · rw [permill_of_gt _ _ _ hgt]
    have hz : s.counter_thr - avg s raw = 0 := by omega
    rw [hz, Nat.zero_mul, Nat.zero_div]
  · rw [permill_of_le _ _ _ hthr hb hle, if_neg (by omega)]
    have hU : U32 = 2 ^ 32 := by norm_num
    have hlt : (s.counter_thr - avg s raw) * 1000 < 2 ^ 32 :=
      lt_of_le_of_lt (Nat.mul_le_mul_right _ (by omega)) hnw
    rw [hU, Nat.mod_eq_of_lt hlt]

/-- C19: for a fixed threshold and baseline with `baseline < threshold` and
`(threshold - baseline) * 1000 < 2 ^ 32`, and every pair of averaged readings
`m1 <= m2` with `baseline <= m1`, both readings are reported with a defined
value and the value for `m2` is less than or equal to the value for `m1`. -/
theorem normalized_weakly_decreasing (s1 s2 : State) (raw1 raw2 : Nat) (hwf1 : s1.wf)
    (hwf2 : s2.wf) (hc1 : completes s1) (hc2 : completes s2) (h01 : s1.avgInt ≠ 0)
    (h02 : s2.avgInt ≠ 0) (hthr : s2.counter_thr = s1.counter_thr)
    (hmin : s2.counter_min = s1.counter_min) (hbt : s1.counter_min < s1.counter_thr)
    (hnw : (s1.counter_thr - s1.counter_min) * 1000 < 2 ^ 32)
    (hb : s1.counter_min ≤ avg s1 raw1) (h12 : avg s1 raw1 ≤ avg s2 raw2) :
    ∃ s1' s2' v1 v2,
      measure_humidity s1 raw1 =
        some (s1', [Packet.humidity s1.device_id s1'.packetcounter (some v1) 0]) ∧
      measure_humidity s2 raw2 =
        some (s2', [Packet.humidity s2.device_id s2'.packetcounter (some v2) 0]) ∧
      v2 ≤ v1 := by
  obtain ⟨s1', hm1, -⟩ := report_with_fixed_baseline s1 raw1 hwf1 hc1 h01 hbt hnw hb
  obtain ⟨s2', hm2, -⟩ := report_with_fixed_baseline s2 raw2 hwf2 hc2 h02
    (by rw [hmin, hthr]; exact hbt) (by rw [hmin, hthr]; exact hnw) (by rw [hmin]; omega)
  rw [hthr, hmin] at hm2
  refine ⟨s1', s2', _, _, hm1, hm2, ?_⟩
  exact Nat.div_le_div_right (Nat.mul_le_mul_right _ (by omega))

/-- Witness of C19: threshold 35000, baseline 30000, means 32000 and 36000. -/
theorem normalized_weakly_decreasing_witness :
    ∃ s1' s2' v1 v2,
      measure_humidity
          { init_state 7 100 with counter_min := 30000, counter_meas := 64000, wupCnt := 2 }
          32000 =
        some (s1', [Packet.humidity 7 s1'.packetcounter (some v1) 0]) ∧
      measure_humidity
          { init_state 7 100 with counter_min := 30000, counter_meas := 72000, wupCnt := 2 }
          36000 =
        some (s2', [Packet.humidity 7 s2'.packetcounter (some v2) 0]) ∧
      v2 ≤ v1 :=
  normalized_weakly_decreasing
    { init_state 7 100 with counter_min := 30000, counter_meas := 64000, wupCnt := 2 }
    { init_state 7 100 with counter_min := 30000, counter_meas := 72000, wupCnt := 2 }
    32000 36000 (by decide) (by decide) (by decide) (by decide) (by decide) (by decide)
    (by decide) (by decide) (by decide) (by decide) (by decide) (by decide)

/-! ## Termination and value of power (C20) -/

/-- C20: `power x y` is total (the loop runs `y` times) and returns `x ^ y`
reduced modulo `2 ^ 32`, with `power x 0 = 1` also for `x = 0`; for every
exponent `e` in 0..31, `power 2 e = 2 ^ e` exactly. -/
theorem power_spec (x y e : Nat) :
    power x y = x ^ y % 2 ^ 32 ∧ power x 0 = 1 ∧ power 0 0 = 1 ∧
      (e < 32 → power 2 e = 2 ^ e) := by
  have hU : U32 = 2 ^ 32 := by norm_num
  refine ⟨?_, rfl, rfl, ?_⟩
  · rw [power_eq, hU]
  · intro he
    exact power_two e he

/-- Witness of C20: `power 2 31 = 2 ^ 31`, and `power 3 21` wraps. -/
theorem power_spec_witness :
    power 3 21 = 3 ^ 21 % 2 ^ 32 ∧ power 3 0 = 1 ∧ power 0 0 = 1 ∧ power 2 31 = 2 ^ 31 :=
  ⟨(power_spec 3 21 31).1, (power_spec 3 21 31).2.1, (power_spec 3 21 31).2.2.1,
    (power_spec 3 21 31).2.2.2 (by decide)⟩

end SoilMoistureMeter
